import Mathlib

/-!
Verification of the maze-store core of the 3D AI search-algorithms demo.

The development shallowly embeds the zustand maze store (`useMaze`): the
maze cell grid, the two maze generators (`generateRandomMaze`,
`createPresetMaze`), and the phase-driven store operations (`setPath`,
`setVisitedCells`, `advanceVisualization`, `moveBall`, `restart`, ...).
JavaScript arrays of cells become `List (List MazeCell)`; the JS idiom
`if (maze[z] && maze[z][x]) maze[z][x].f = v` (a bounds-guarded in-place
update) becomes the total function `modifyCell`, which is the identity
when the coordinates fall outside the grid.  `Math.random()` is modelled
by an arbitrary stream `rng : Nat -> Nat` of natural numbers consumed by
the Fisher-Yates shuffle (`Math.floor(Math.random() * (i + 1))` becomes
`rng c % (i + 1)`), and the unbounded recursion of `carve` is driven by
an explicit fuel counter; all theorems about the generator hold for every
rng stream and every fuel value, hence for every run of the source code.
-/

namespace MazeSim

/-- Search algorithms offered by the UI (type `Algorithm` in the source). -/
inductive Algorithm where
  | astar | bfs | dfs | ucs | ids
deriving DecidableEq

/-- Session phases (type `GamePhase` in the source). -/
inductive GamePhase where
  | menu | solving | visualizing | moving | completed
deriving DecidableEq

/-- Difficulty levels (type `Difficulty` in the source). -/
inductive Difficulty where
  | easy | medium | hard
deriving DecidableEq

/-- Visualization modes (type `VisualizationMode` in the source). -/
inductive VisualizationMode where
  | instant | step
deriving DecidableEq

/-- A coordinate pair (interface `Position` in the source).  Coordinates are
integers: solver output may reference any coordinates, including negative
ones, and the store's bounds guards must be modelled for those too. -/
structure Position where
  x : Int
  z : Int
deriving DecidableEq

/-- One maze grid cell (interface `MazeCell` in the source). -/
structure MazeCell where
  x : Int
  z : Int
  isWall : Bool
  isStart : Bool
  isEnd : Bool
  isPath : Bool
  isVisited : Bool
deriving DecidableEq

/-- Solver statistics (interface `AlgorithmStats` in the source).  The store
treats this payload as a black box; `solveTimeMs` is a JS float in the source but
no store operation inspects it, so an integer stand-in is adequate. -/
structure AlgorithmStats where
  solveTimeMs : Int
  nodesExplored : Int
  pathLength : Int
deriving DecidableEq

/-- The maze grid: a list of rows, each a list of cells (`MazeCell[][]`). -/
abbrev Maze := List (List MazeCell)

/-- Replace the element at index `n` by its image under `f`; identity when
`n` is out of range.  This is the building block for the JS in-place cell
assignments. -/
def listModify (f : α → α) : Nat → List α → List α
  | _, [] => []
  | 0, a :: as => f a :: as
  | n + 1, a :: as => a :: listModify f n as

/-- Read the cell at row `z`, column `x`; `none` when the coordinates fall
outside the grid (the JS expression `maze[z] && maze[z][x]` is falsy exactly
when this returns `none`). -/
def getCell (m : Maze) (z x : Int) : Option MazeCell :=
  if 0 ≤ z ∧ 0 ≤ x then (m[z.toNat]?).bind (fun row => row[x.toNat]?) else none

/-- Apply `f` to the cell at row `z`, column `x`; identity when the
coordinates fall outside the grid.  This embeds the guarded JS assignment
`if (maze[z] && maze[z][x]) maze[z][x] = f(maze[z][x])`; at call sites where
the source omits the guard the coordinates are provably in range, so the
guarded and unguarded assignments agree. -/
def modifyCell (m : Maze) (z x : Int) (f : MazeCell → MazeCell) : Maze :=
  if 0 ≤ z ∧ 0 ≤ x then listModify (fun row => listModify f x.toNat row) z.toNat m else m

theorem listModify_length (f : α → α) : ∀ (n : Nat) (l : List α),
    (listModify f n l).length = l.length := by
  intro n l
  induction l generalizing n with
  | nil => cases n <;> rfl
  | cons a as ih => cases n with
    | zero => rfl
    | succ n => simpa [listModify] using ih n

theorem listModify_getElem? (f : α → α) : ∀ (n : Nat) (l : List α) (k : Nat),
    (listModify f n l)[k]? = if k = n then (l[n]?).map f else l[k]? := by
  intro n l
  induction l generalizing n with
  | nil => intro k; cases n <;> simp [listModify]
  | cons a as ih =>
    intro k
    cases n with
    | zero => cases k <;> simp [listModify]
    | succ n =>
      cases k with
      | zero => simp [listModify]
      | succ k => simpa [listModify] using ih n k

theorem getCell_modifyCell (m : Maze) (z x : Int) (f : MazeCell → MazeCell)
    (z' x' : Int) :
    getCell (modifyCell m z x f) z' x' =
      if z' = z ∧ x' = x then (getCell m z x).map f else getCell m z' x' := by
  by_cases h : 0 ≤ z ∧ 0 ≤ x
  · have hmod : modifyCell m z x f = listModify (fun row => listModify f x.toNat row) z.toNat m := by
      unfold modifyCell; rw [if_pos h]
    by_cases h' : 0 ≤ z' ∧ 0 ≤ x'
    · have l1 : getCell (modifyCell m z x f) z' x' =
          ((modifyCell m z x f)[z'.toNat]?).bind (fun row => row[x'.toNat]?) := by
        unfold getCell; rw [if_pos h']
      have lg : getCell m z x = (m[z.toNat]?).bind (fun row => row[x.toNat]?) := by
        unfold getCell; rw [if_pos h]
      have lg' : getCell m z' x' = (m[z'.toNat]?).bind (fun row => row[x'.toNat]?) := by
        unfold getCell; rw [if_pos h']
      rw [l1, lg, lg', hmod, listModify_getElem?]
      by_cases hz : z' = z
      · subst hz
        rw [if_pos rfl]
        by_cases hx : x' = x
        · subst hx
          rw [if_pos (⟨rfl, rfl⟩ : z' = z' ∧ x' = x')]
          cases m[z'.toNat]? with
          | none => rfl
          | some row =>
            simp only [Option.map_some', Option.some_bind]
            rw [listModify_getElem?, if_pos rfl]
        · have hxx : x'.toNat ≠ x.toNat := by omega
          rw [if_neg (by simp [hx] : ¬(z' = z' ∧ x' = x))]
          cases m[z'.toNat]? with
          | none => rfl
          | some row =>
            simp only [Option.map_some', Option.some_bind]
            rw [listModify_getElem?, if_neg hxx]
      · have hzz : z'.toNat ≠ z.toNat := by omega
        rw [if_neg hzz, if_neg (by simp [hz] : ¬(z' = z ∧ x' = x))]
    · have l1 : getCell (modifyCell m z x f) z' x' = none := by
        unfold getCell; rw [if_neg h']
      have l2 : getCell m z' x' = none := by
        unfold getCell; rw [if_neg h']
      rw [l1, l2]
      by_cases hzx : z' = z ∧ x' = x
      · rw [if_pos hzx]
        obtain ⟨rfl, rfl⟩ := hzx
        have : getCell m z' x' = none := by unfold getCell; rw [if_neg h']
        rw [this]; rfl
      · rw [if_neg hzx]
  · have hid : modifyCell m z x f = m := by unfold modifyCell; rw [if_neg h]
    rw [hid]
    by_cases hzx : z' = z ∧ x' = x
    · rw [if_pos hzx]
      obtain ⟨rfl, rfl⟩ := hzx
      have : getCell m z' x' = none := by unfold getCell; rw [if_neg h]
      rw [this]; rfl
    · rw [if_neg hzx]

theorem getCell_mapRows (m : Maze) (f : MazeCell → MazeCell) (z x : Int) :
    getCell (m.map (fun row => row.map f)) z x = (getCell m z x).map f := by
  unfold getCell
  by_cases h : 0 ≤ z ∧ 0 ≤ x
  · rw [if_pos h, if_pos h, List.getElem?_map]
    cases m[z.toNat]? with
    | none => rfl
    | some row => simp [List.getElem?_map]
  · simp [h]

/-- Build `count` cells for row `z`, starting at column `x0` (the inner
`for (x = 0; x < width; x++)` loop of both generators).  All flags start
`false`; `wall` sets the initial `isWall`. -/
def mkRow (z : Int) (wall : Bool) : Int → Nat → List MazeCell
  | _, 0 => []
  | x0, count + 1 =>
    { x := x0, z := z, isWall := wall, isStart := false, isEnd := false,
      isPath := false, isVisited := false } :: mkRow z wall (x0 + 1) count

/-- Build `count` rows starting at row index `z0` (the outer
`for (z = 0; z < height; z++)` loop of both generators). -/
def mkRows (wall : Bool) (width : Int) : Int → Nat → Maze
  | _, 0 => []
  | z0, count + 1 => mkRow z0 wall 0 width.toNat :: mkRows wall width (z0 + 1) count

/-- The freshly initialised grid both generators start from:
`height` rows of `width` cells, every flag `false`, `isWall := wall`. -/
def mkGrid (width height : Int) (wall : Bool) : Maze :=
  mkRows wall width 0 height.toNat

theorem mkRow_getElem? (z : Int) (wall : Bool) : ∀ (count : Nat) (x0 : Int) (k : Nat),
    (mkRow z wall x0 count)[k]? =
      if k < count then
        some { x := x0 + k, z := z, isWall := wall, isStart := false, isEnd := false,
               isPath := false, isVisited := false }
      else none := by
  intro count
  induction count with
  | zero => intro x0 k; simp [mkRow]
  | succ n ih =>
    intro x0 k
    cases k with
    | zero => simp [mkRow]
    | succ k =>
      rw [show (mkRow z wall x0 (n + 1)) = _ :: mkRow z wall (x0 + 1) n from rfl]
      rw [List.getElem?_cons_succ, ih (x0 + 1) k]
      by_cases hk : k < n
      · rw [if_pos hk, if_pos (by omega)]
        congr 2
        omega
      · rw [if_neg hk, if_neg (by omega)]

theorem mkRows_getElem? (wall : Bool) (width : Int) : ∀ (count : Nat) (z0 : Int) (k : Nat),
    (mkRows wall width z0 count)[k]? =
      if k < count then some (mkRow (z0 + k) wall 0 width.toNat) else none := by
  intro count
  induction count with
  | zero => intro z0 k; simp [mkRows]
  | succ n ih =>
    intro z0 k
    cases k with
    | zero => simp [mkRows]
    | succ k =>
      rw [show (mkRows wall width z0 (n + 1)) = _ :: mkRows wall width (z0 + 1) n from rfl]
      rw [List.getElem?_cons_succ, ih (z0 + 1) k]
      by_cases hk : k < n
      · rw [if_pos hk, if_pos (by omega)]
        congr 2
        omega
      · rw [if_neg hk, if_neg (by omega)]

theorem getCell_mkGrid (width height : Int) (wall : Bool) (z x : Int) :
    getCell (mkGrid width height wall) z x =
      if 0 ≤ z ∧ z < height ∧ 0 ≤ x ∧ x < width then
        some { x := x, z := z, isWall := wall, isStart := false, isEnd := false,
               isPath := false, isVisited := false }
      else none := by
  unfold getCell mkGrid
  by_cases h : 0 ≤ z ∧ 0 ≤ x
  · rw [if_pos h, mkRows_getElem?]
    by_cases hz : z.toNat < height.toNat
    · rw [if_pos hz]
      simp only [Option.some_bind]
      rw [mkRow_getElem?]
      by_cases hx : x.toNat < width.toNat
      · rw [if_pos hx, if_pos (by omega)]
        congr 1
        congr 1 <;> omega
      · rw [if_neg hx, if_neg (by omega)]
    · rw [if_neg hz, if_neg (by omega)]
      rfl
  · rw [if_neg h, if_neg (by omega)]

/-- Swap the elements at indices `i` and `j` (the JS destructuring swap
`[a[i], a[j]] = [a[j], a[i]]`); identity when either index is out of range. -/
def listSwap (l : List α) (i j : Nat) : List α :=
  match l[i]?, l[j]? with
  | some a, some b => (l.set i b).set j a
  | _, _ => l

theorem mem_of_mem_listSwap {l : List α} {i j : Nat} {a : α}
    (h : a ∈ listSwap l i j) : a ∈ l := by
  unfold listSwap at h
  cases hi : l[i]? with
  | none => rw [hi] at h; exact h
  | some b =>
    cases hj : l[j]? with
    | none => rw [hi, hj] at h; exact h
    | some c =>
      rw [hi, hj] at h
      rcases List.mem_or_eq_of_mem_set h with h' | rfl
      · rcases List.mem_or_eq_of_mem_set h' with h'' | rfl
        · exact h''
        · exact List.getElem?_mem hj
      · exact List.getElem?_mem hi

/-- The four candidate carve directions, in source order
`[{dx:0,dz:-2}, {dx:0,dz:2}, {dx:-2,dz:0}, {dx:2,dz:0}]`; the first
component is `dx`, the second `dz`. -/
def DIRECTIONS : List (Int × Int) := [(0, -2), (0, 2), (-2, 0), (2, 0)]

/-- The Fisher-Yates shuffle loop
`for (i = 3; i > 0; i--) { j = floor(random() * (i + 1)); swap(i, j) }`.
`rng c` models the `c`-th value drawn from `Math.random()`, scaled: the JS
expression `Math.floor(Math.random() * (i + 1))` is an arbitrary value in
`[0, i]`, modelled as `rng c % (i + 1)`. -/
def fisherYates (rng : Nat → Nat) : Nat → Nat → List (Int × Int) → List (Int × Int)
  | _, 0, l => l
  | c, i + 1, l => fisherYates rng (c + 1) i (listSwap l (i + 1) (rng c % (i + 2)))

theorem mem_of_mem_fisherYates (rng : Nat → Nat) :
    ∀ (i c : Nat) (l : List (Int × Int)) (d : Int × Int),
      d ∈ fisherYates rng c i l → d ∈ l := by
  intro i
  induction i with
  | zero => intro c l d h; exact h
  | succ n ih =>
    intro c l d h
    exact mem_of_mem_listSwap (ih (c + 1) _ d h)

/-- Set `isWall := false` on the cell at `(z, x)` (the assignment
`maze[z][x].isWall = false`). -/
def openCell (m : Maze) (z x : Int) : Maze :=
  modifyCell m z x (fun cell => { cell with isWall := false })

/-- Does the cell at `(z, x)` exist and have `isWall = true`?  Evaluated by
`carve` only after its bounds guard, where the cell always exists. -/
def cellIsWall (m : Maze) (z x : Int) : Bool :=
  match getCell m z x with
  | some cell => cell.isWall
  | none => false

/-- The recursive carver of `generateRandomMaze`.  The accumulator pairs the
maze with the index of the next unconsumed `Math.random()` draw; each level
shuffles the four directions (consuming three draws) and, for each direction
whose target two cells away is an interior wall cell, opens the intermediate
cell and recurses from the target.  `fuel` bounds the recursion depth; the
JS recursion terminates because every recursive call opens a wall cell, so
any fuel of at least `width * height` reproduces the source behaviour, and
every theorem below holds for every fuel value. -/
def carve (width height : Int) (rng : Nat → Nat) :
    Nat → Nat → Maze → Int → Int → Maze × Nat
  | 0, c, m, _, _ => (m, c)
  | fuel + 1, c, m, x, z =>
    let m0 := openCell m z x
    let dirs := fisherYates rng c 3 DIRECTIONS
    dirs.foldl
      (fun acc d =>
        let newX := x + d.1
        let newZ := z + d.2
        if 0 < newX ∧ newX < width - 1 ∧ 0 < newZ ∧ newZ < height - 1 ∧
            cellIsWall acc.1 newZ newX then
          carve width height rng fuel acc.2
            (openCell acc.1 (z + d.2 / 2) (x + d.1 / 2)) newX newZ
        else acc)
      (m0, c + 3)

/-- `generateRandomMaze(width, height)`: all-wall grid, recursive carving
from `(1, 1)`, then force-open the start, the end, and the end's north and
west neighbours.  The two neighbour openings are existence-guarded in the
source (`if (maze[end.z-1] && maze[end.z-1][end.x]) ...`), which is exactly
`modifyCell`'s out-of-range behaviour. -/
def generateRandomMaze (width height : Int) (rng : Nat → Nat) :
    Maze × Position × Position :=
  let m := mkGrid width height true
  let start : Position := { x := 1, z := 1 }
  let stop : Position := { x := width - 2, z := height - 2 }
  let m := (carve width height rng (width * height).toNat 0 m 1 1).1
  let m := modifyCell m start.z start.x (fun cell => { cell with isStart := true })
  let m := modifyCell m start.z start.x (fun cell => { cell with isWall := false })
  let m := modifyCell m stop.z stop.x (fun cell => { cell with isEnd := true })
  let m := modifyCell m stop.z stop.x (fun cell => { cell with isWall := false })
  let m := openCell m (stop.z - 1) stop.x
  let m := openCell m stop.z (stop.x - 1)
  (m, start, stop)

/-- One hand-authored preset: dimensions plus its wall list.  Wall entries
are `[z, x]` pairs (the source destructures `([z, x])`); the catalog only
contains non-negative literals, so natural numbers model them exactly. -/
structure PresetSpec where
  width : Int
  height : Int
  walls : List (Nat × Nat)

/-- First catalog entry (PRESET_MAZES[0]). -/
def preset0 : PresetSpec :=
  { width := 15, height := 15,
    walls := [
      (2, 1), (2, 2), (2, 3), (2, 5), (2, 6), (2, 7), (2, 9), (2, 10), (2, 11),
      (4, 3), (4, 4), (4, 5), (4, 7), (4, 8), (4, 9), (4, 11), (4, 12), (4, 13),
      (5, 3), (5, 9),
      (6, 1), (6, 3), (6, 5), (6, 6), (6, 7), (6, 9), (6, 11),
      (7, 5), (7, 11),
      (8, 1), (8, 2), (8, 3), (8, 5), (8, 7), (8, 8), (8, 9), (8, 11), (8, 12), (8, 13),
      (9, 7),
      (10, 1), (10, 2), (10, 3), (10, 5), (10, 6), (10, 7), (10, 9), (10, 10), (10, 11),
      (11, 3), (11, 9),
      (12, 3), (12, 5), (12, 6), (12, 7), (12, 9), (12, 11), (12, 12), (12, 13)] }

/-- Second catalog entry (PRESET_MAZES[1]). -/
def preset1 : PresetSpec :=
  { width := 15, height := 15,
    walls := [
      (2, 2), (2, 4), (2, 6), (2, 8), (2, 10), (2, 12),
      (3, 2), (3, 6), (3, 10),
      (4, 2), (4, 4), (4, 6), (4, 8), (4, 10), (4, 12),
      (5, 4), (5, 8), (5, 12),
      (6, 2), (6, 4), (6, 6), (6, 8), (6, 10), (6, 12),
      (7, 2), (7, 6), (7, 10),
      (8, 2), (8, 4), (8, 6), (8, 8), (8, 10), (8, 12),
      (9, 4), (9, 8), (9, 12),
      (10, 2), (10, 4), (10, 6), (10, 8), (10, 10), (10, 12),
      (11, 2), (11, 6), (11, 10),
      (12, 2), (12, 4), (12, 6), (12, 8), (12, 10), (12, 12)] }

/-- Third catalog entry (PRESET_MAZES[2]). -/
def preset2 : PresetSpec :=
  { width := 15, height := 15,
    walls := [
      (1, 7), (2, 7), (3, 7), (4, 7), (5, 7),
      (7, 1), (7, 2), (7, 3), (7, 4), (7, 5), (7, 9), (7, 10), (7, 11), (7, 12), (7, 13),
      (9, 7), (10, 7), (11, 7), (12, 7), (13, 7),
      (3, 3), (3, 11), (11, 3), (11, 11),
      (4, 3), (4, 11), (10, 3), (10, 11),
      (3, 4), (3, 10), (11, 4), (11, 10)] }

/-- The fixed preset catalog (`PRESET_MAZES` in the source). -/
def PRESET_MAZES : List PresetSpec := [preset0, preset1, preset2]

/-- The `walls.forEach(([z, x]) => { if (z < height && x < width) ... })`
loop of `createPresetMaze`: punch each listed wall onto the grid, skipping
any entry at or beyond the grid dimensions. -/
def layWalls (height width : Int) (walls : List (Nat × Nat)) (m : Maze) : Maze :=
  walls.foldl
    (fun acc zx =>
      if (zx.1 : Int) < height ∧ (zx.2 : Int) < width then
        modifyCell acc zx.1 zx.2 (fun cell => { cell with isWall := true })
      else acc)
    m

/-- The result record of `createPresetMaze`:
`{ maze, start, end, width, height }`. -/
structure PresetResult where
  maze : Maze
  start : Position
  stop : Position
  width : Int
  height : Int
deriving DecidableEq

/-- The body of `createPresetMaze` applied to one catalog entry: open grid,
solid boundary ring, catalog walls, then force-open start `(1,1)` and end
`(width-2, height-2)`.  The two boundary `for` loops become folds over the
row and column index ranges. -/
def buildPreset (p : PresetSpec) : PresetResult :=
  let m := mkGrid p.width p.height false
  let m := (List.range p.width.toNat).foldl
    (fun acc x => modifyCell (modifyCell acc 0 x (fun cell => { cell with isWall := true }))
      (p.height - 1) x (fun cell => { cell with isWall := true })) m
  let m := (List.range p.height.toNat).foldl
    (fun acc z => modifyCell (modifyCell acc z 0 (fun cell => { cell with isWall := true }))
      z (p.width - 1) (fun cell => { cell with isWall := true })) m
  let m := layWalls p.height p.width p.walls m
  let start : Position := { x := 1, z := 1 }
  let stop : Position := { x := p.width - 2, z := p.height - 2 }
  let m := modifyCell m start.z start.x (fun cell => { cell with isStart := true })
  let m := modifyCell m start.z start.x (fun cell => { cell with isWall := false })
  let m := modifyCell m stop.z stop.x (fun cell => { cell with isEnd := true })
  let m := modifyCell m stop.z stop.x (fun cell => { cell with isWall := false })
  { maze := m, start := start, stop := stop, width := p.width, height := p.height }

/-- `createPresetMaze(presetIndex)`.  JS `%` is the truncated remainder
(`Int.tmod`), so a negative index that is not a multiple of 3 yields a
negative remainder, `PRESET_MAZES[negative]` is `undefined`, and the
destructuring `const { width, height, walls } = preset` throws a
`TypeError`; that abnormal completion is modelled by `none`. -/
def createPresetMaze (presetIndex : Int) : Option PresetResult :=
  let idx := presetIndex.tmod (PRESET_MAZES.length : Int)
  (if 0 ≤ idx then PRESET_MAZES[idx.toNat]? else none).map buildPreset

/-- The store state (interface `MazeState` in the source, data fields only;
the actions become the functions below). -/
structure MazeState where
  phase : GamePhase
  selectedAlgorithm : Option Algorithm
  maze : Maze
  mazeWidth : Int
  mazeHeight : Int
  startPos : Position
  endPos : Position
  path : List Position
  visitedCells : List Position
  ballPosition : Position
  pathIndex : Nat
  stats : Option AlgorithmStats
  visualizationMode : VisualizationMode
  difficulty : Difficulty
  visualizationIndex : Nat
deriving DecidableEq

/-- `DIFFICULTY_SIZES`: grid dimensions per difficulty, `(width, height)`. -/
def DIFFICULTY_SIZES : Difficulty → Int × Int
  | .easy => (11, 11)
  | .medium => (15, 15)
  | .hard => (21, 21)

/-- The module-level `const initialMaze = createPresetMaze(0)`.  Index 0 is
non-negative, so the catalog lookup succeeds and equals `buildPreset preset0`
(see `createPresetMaze_zero`). -/
def initialMaze : PresetResult := buildPreset preset0

theorem createPresetMaze_zero : createPresetMaze 0 = some initialMaze := rfl

/-- The initial store state passed to `create(...)`. -/
def initialState : MazeState :=
  { phase := .menu
    selectedAlgorithm := none
    maze := initialMaze.maze
    mazeWidth := initialMaze.width
    mazeHeight := initialMaze.height
    startPos := initialMaze.start
    endPos := initialMaze.stop
    path := []
    visitedCells := []
    ballPosition := initialMaze.start
    pathIndex := 0
    stats := none
    visualizationMode := .instant
    difficulty := .medium
    visualizationIndex := 0 }

/-- Store action `setAlgorithm`. -/
def setAlgorithm (algo : Algorithm) (s : MazeState) : MazeState :=
  { s with selectedAlgorithm := some algo }

/-- Store action `setVisualizationMode`. -/
def setVisualizationMode (mode : VisualizationMode) (s : MazeState) : MazeState :=
  { s with visualizationMode := mode }

/-- Store action `setDifficulty`. -/
def setDifficulty (diff : Difficulty) (s : MazeState) : MazeState :=
  { s with difficulty := diff }

/-- Store action `startGame`: enter `solving` only when an algorithm is
selected. -/
def startGame (s : MazeState) : MazeState :=
  if s.selectedAlgorithm.isSome then { s with phase := .solving } else s

/-- The `path.forEach(pos => { if (newMaze[pos.z] && newMaze[pos.z][pos.x])
newMaze[pos.z][pos.x].isPath = true; })` loop, shared verbatim by `setPath`
and by the exhaustion branch of `advanceVisualization`. -/
def markPathCells (path : List Position) (m : Maze) : Maze :=
  path.foldl
    (fun acc pos => modifyCell acc pos.z pos.x (fun cell => { cell with isPath := true }))
    m

/-- Store action `setPath`: clear `isPath` on every cell, re-mark it on the
supplied in-range coordinates, and record the path. -/
def setPath (path : List Position) (s : MazeState) : MazeState :=
  let newMaze := s.maze.map (fun row => row.map (fun cell => { cell with isPath := false }))
  let newMaze := markPathCells path newMaze
  { s with path := path, maze := newMaze }

/-- Store action `setVisitedCells`: clear `isVisited` on every cell, re-mark
it on the supplied in-range coordinates, and record the visited list. -/
def setVisitedCells (cells : List Position) (s : MazeState) : MazeState :=
  let newMaze := s.maze.map (fun row => row.map (fun cell => { cell with isVisited := false }))
  let newMaze := cells.foldl
    (fun acc pos => modifyCell acc pos.z pos.x (fun cell => { cell with isVisited := true }))
    newMaze
  { s with visitedCells := cells, maze := newMaze }

/-- Store action `storeVisitedCells`: record the visited list without
touching any overlay. -/
def storeVisitedCells (cells : List Position) (s : MazeState) : MazeState :=
  { s with visitedCells := cells }

/-- Store action `setStats`. -/
def setStats (stats : AlgorithmStats) (s : MazeState) : MazeState :=
  { s with stats := some stats }

/-- Store action `startVisualization`: clear both overlays, reset the
cursor, enter the `visualizing` phase. -/
def startVisualization (s : MazeState) : MazeState :=
  let newMaze := s.maze.map (fun row => row.map
    (fun cell => { cell with isVisited := false, isPath := false }))
  { s with phase := .visualizing, visualizationIndex := 0, maze := newMaze }

/-- Store action `advanceVisualization`: while the cursor is below
`visitedCells.length`, mark the next visited cell and advance the cursor,
returning `true`; otherwise commit the whole path overlay and return
`false`.  The `maze.map(row => row.map(cell => ({ ...cell })))` snapshot
copies are written out as in the source. -/
def advanceVisualization (s : MazeState) : MazeState × Bool :=
  if h : s.visualizationIndex < s.visitedCells.length then
    let newMaze := s.maze.map (fun row => row.map (fun cell => cell))
    let cell := s.visitedCells.get ⟨s.visualizationIndex, h⟩
    let newMaze := modifyCell newMaze cell.z cell.x
      (fun c => { c with isVisited := true })
    ({ s with maze := newMaze, visualizationIndex := s.visualizationIndex + 1 }, true)
  else
    let newMaze := s.maze.map (fun row => row.map (fun cell => cell))
    let newMaze := markPathCells s.path newMaze
    ({ s with maze := newMaze }, false)

/-- Store action `startMoving`. -/
def startMoving (s : MazeState) : MazeState :=
  { s with phase := .moving, pathIndex := 0 }

/-- Store action `moveBall`: step the agent to `path[pathIndex]` and return
`true` while the path is not exhausted; otherwise return `false` without
any state change. -/
def moveBall (s : MazeState) : MazeState × Bool :=
  if h : s.pathIndex < s.path.length then
    ({ s with ballPosition := s.path.get ⟨s.pathIndex, h⟩,
              pathIndex := s.pathIndex + 1 }, true)
  else (s, false)

/-- Store action `complete`. -/
def complete (s : MazeState) : MazeState :=
  { s with phase := .completed }

/-- Store action `restart`: regenerate a random maze at the current
difficulty and reset the whole session (phase back to `menu`). -/
def restart (rng : Nat → Nat) (s : MazeState) : MazeState :=
  let size := DIFFICULTY_SIZES s.difficulty
  let newMaze := generateRandomMaze size.1 size.2 rng
  { s with
    phase := .menu
    selectedAlgorithm := none
    maze := newMaze.1
    mazeWidth := size.1
    mazeHeight := size.2
    startPos := newMaze.2.1
    endPos := newMaze.2.2
    path := []
    visitedCells := []
    ballPosition := newMaze.2.1
    pathIndex := 0
    stats := none
    visualizationIndex := 0 }

/-- Store action `generateMaze`: like `restart` but without touching
`phase` or `selectedAlgorithm`. -/
def generateMaze (rng : Nat → Nat) (s : MazeState) : MazeState :=
  let size := DIFFICULTY_SIZES s.difficulty
  let newMaze := generateRandomMaze size.1 size.2 rng
  { s with
    maze := newMaze.1
    mazeWidth := size.1
    mazeHeight := size.2
    startPos := newMaze.2.1
    endPos := newMaze.2.2
    ballPosition := newMaze.2.1
    path := []
    visitedCells := []
    pathIndex := 0
    stats := none
    visualizationIndex := 0 }

/-- Store action `loadPresetMaze`: `none` when `createPresetMaze` throws
(negative index with non-zero remainder), otherwise the fully replaced
session state. -/
def loadPresetMaze (preset : Int) (s : MazeState) : Option MazeState :=
  (createPresetMaze preset).map (fun r =>
    { s with
      maze := r.maze
      mazeWidth := r.width
      mazeHeight := r.height
      startPos := r.start
      endPos := r.stop
      ballPosition := r.start
      path := []
      visitedCells := []
      pathIndex := 0
      stats := none
      visualizationIndex := 0 })

/-- One invocation of a store action, for quantifying over "any sequence of
store operations".  Random generation carries its rng stream. -/
inductive Op where
  | setAlgorithm (algo : Algorithm)
  | setVisualizationMode (mode : VisualizationMode)
  | setDifficulty (diff : Difficulty)
  | startGame
  | setPath (path : List Position)
  | setVisitedCells (cells : List Position)
  | storeVisitedCells (cells : List Position)
  | setStats (stats : AlgorithmStats)
  | startVisualization
  | advanceVisualization
  | startMoving
  | moveBall
  | complete
  | restart (rng : Nat → Nat)
  | generateMaze (rng : Nat → Nat)
  | loadPresetMaze (preset : Int)

/-- Apply one store action to the state.  For the two boolean-returning
actions only the state component matters here; a throwing `loadPresetMaze`
leaves the zustand state untouched (`set` is never reached), hence `getD s`. -/
def applyOp : Op → MazeState → MazeState
  | .setAlgorithm a, s => setAlgorithm a s
  | .setVisualizationMode m, s => setVisualizationMode m s
  | .setDifficulty d, s => setDifficulty d s
  | .startGame, s => startGame s
  | .setPath p, s => setPath p s
  | .setVisitedCells cs, s => setVisitedCells cs s
  | .storeVisitedCells cs, s => storeVisitedCells cs s
  | .setStats st, s => setStats st s
  | .startVisualization, s => startVisualization s
  | .advanceVisualization, s => (advanceVisualization s).1
  | .startMoving, s => startMoving s
  | .moveBall, s => (moveBall s).1
  | .complete, s => complete s
  | .restart rng, s => restart rng s
  | .generateMaze rng, s => generateMaze rng s
  | .loadPresetMaze i, s => (loadPresetMaze i s).getD s

/-- States reachable from the initial store state by store operations. -/
inductive Reachable : MazeState → Prop where
  | init : Reachable initialState
  | next {s : MazeState} (h : Reachable s) (op : Op) : Reachable (applyOp op s)

theorem foldl_induction {α β : Type _} (f : β → α → β) (P : β → Prop) :
    ∀ (l : List α) (b : β), P b → (∀ a ∈ l, ∀ acc, P acc → P (f acc a)) →
      P (l.foldl f b) := by
  intro l
  induction l with
  | nil => intro b hb _; exact hb
  | cons a as ih =>
    intro b hb hstep
    exact ih (f b a) (hstep a (List.mem_cons_self a as) b hb)
      (fun a' ha' acc hacc => hstep a' (List.mem_cons_of_mem a ha') acc hacc)

/-- Clearing the wall flag, the only cell change `carve` ever performs. -/
def openW (c : MazeCell) : MazeCell := { c with isWall := false }

theorem openW_openW (c : MazeCell) : openW (openW c) = openW c := rfl

/-- Is `(x, z)` strictly inside the boundary ring of a `width` x `height`
grid?  `carve` only ever touches interior cells. -/
def interiorCell (width height : Int) (z x : Int) : Prop :=
  0 < x ∧ x < width - 1 ∧ 0 < z ∧ z < height - 1

/-- How `carve` evolves a grid: every cell is either untouched or, when
interior, has had (only) its wall flag cleared. -/
def cellEvol (width height : Int) (m₁ m₂ : Maze) : Prop :=
  ∀ z x : Int,
    getCell m₂ z x = getCell m₁ z x ∨
    (interiorCell width height z x ∧ getCell m₂ z x = (getCell m₁ z x).map openW)

theorem cellEvol_refl (width height : Int) (m : Maze) : cellEvol width height m m :=
  fun _ _ => Or.inl rfl

theorem cellEvol_trans {width height : Int} {m₁ m₂ m₃ : Maze}
    (h₁ : cellEvol width height m₁ m₂) (h₂ : cellEvol width height m₂ m₃) :
    cellEvol width height m₁ m₃ := by
  intro z x
  rcases h₂ z x with h | ⟨hint, h⟩
  · rcases h₁ z x with h' | ⟨hint', h'⟩
    · exact Or.inl (h.trans h')
    · exact Or.inr ⟨hint', h.trans h'⟩
  · rcases h₁ z x with h' | ⟨hint', h'⟩
    · exact Or.inr ⟨hint, by rw [h, h']⟩
    · refine Or.inr ⟨hint, ?_⟩
      rw [h, h', Option.map_map]
      have : openW ∘ openW = openW := funext openW_openW
      rw [this]

theorem cellEvol_openCell {width height : Int} (m : Maze) {z x : Int}
    (h : interiorCell width height z x) :
    cellEvol width height m (openCell m z x) := by
  intro z' x'
  unfold openCell
  rw [getCell_modifyCell]
  by_cases hq : z' = z ∧ x' = x
  · obtain ⟨rfl, rfl⟩ := hq
    exact Or.inr ⟨h, by rw [if_pos (⟨rfl, rfl⟩ : z' = z' ∧ x' = x')]; rfl⟩
  · rw [if_neg hq]
    exact Or.inl rfl

theorem cellEvol_carve (width height : Int) (rng : Nat → Nat) :
    ∀ (fuel c : Nat) (m : Maze) (x z : Int),
      interiorCell width height z x →
      cellEvol width height m (carve width height rng fuel c m x z).1 := by
  intro fuel
  induction fuel with
  | zero => intro c m x z _; exact cellEvol_refl width height m
  | succ fuel ih =>
    intro c m x z hin
    refine foldl_induction _ (fun acc : Maze × Nat => cellEvol width height m acc.1) _
      ((openCell m z x, c + 3) : Maze × Nat) (cellEvol_openCell m hin) ?_
    intro d hd acc hacc
    have hd' : d ∈ DIRECTIONS := mem_of_mem_fisherYates rng 3 c _ d hd
    by_cases hg : 0 < x + d.1 ∧ x + d.1 < width - 1 ∧ 0 < z + d.2 ∧
        z + d.2 < height - 1 ∧ cellIsWall acc.1 (z + d.2) (x + d.1)
    · simp only [if_pos hg]
      have hmid : interiorCell width height (z + d.2 / 2) (x + d.1 / 2) := by
        obtain ⟨hin1, hin2, hin3, hin4⟩ := hin
        fin_cases hd' <;>
          simp only [interiorCell] at * <;>
          constructor <;> omega
      have h1 : cellEvol width height acc.1 (openCell acc.1 (z + d.2 / 2) (x + d.1 / 2)) :=
        cellEvol_openCell acc.1 hmid
      have h2 := ih acc.2 (openCell acc.1 (z + d.2 / 2) (x + d.1 / 2)) (x + d.1) (z + d.2)
        ⟨hg.1, hg.2.1, hg.2.2.1, hg.2.2.2.1⟩
      exact cellEvol_trans hacc (cellEvol_trans h1 h2)
    · simp only [if_neg hg]
      exact hacc

theorem generateRandomMaze_maze_eq (width height : Int) (rng : Nat → Nat) :
    (generateRandomMaze width height rng).1 =
      modifyCell (modifyCell (modifyCell (modifyCell (modifyCell (modifyCell
        (carve width height rng (width * height).toNat 0 (mkGrid width height true) 1 1).1
        1 1 (fun cell => { cell with isStart := true }))
        1 1 (fun cell => { cell with isWall := false }))
        (height - 2) (width - 2) (fun cell => { cell with isEnd := true }))
        (height - 2) (width - 2) (fun cell => { cell with isWall := false }))
        (height - 2 - 1) (width - 2) (fun cell => { cell with isWall := false }))
        (height - 2) (width - 2 - 1) (fun cell => { cell with isWall := false }) := rfl

theorem carve_mkGrid_evol (width height : Int) (rng : Nat → Nat)
    (hw : 3 ≤ width) (hh : 3 ≤ height) :
    cellEvol width height (mkGrid width height true)
      (carve width height rng (width * height).toNat 0 (mkGrid width height true) 1 1).1 :=
  cellEvol_carve width height rng _ 0 _ 1 1 (by unfold interiorCell; omega)

theorem generateRandomMaze_start {width height : Int} (rng : Nat → Nat)
    (hw : 11 ≤ width) (hh : 11 ≤ height) :
    getCell (generateRandomMaze width height rng).1 1 1 =
      some { x := 1, z := 1, isWall := false, isStart := true, isEnd := false,
             isPath := false, isVisited := false } := by
  rw [generateRandomMaze_maze_eq]
  rw [getCell_modifyCell, if_neg (by omega : ¬((1 : Int) = height - 2 ∧ (1 : Int) = width - 2 - 1))]
  rw [getCell_modifyCell, if_neg (by omega : ¬((1 : Int) = height - 2 - 1 ∧ (1 : Int) = width - 2))]
  rw [getCell_modifyCell, if_neg (by omega : ¬((1 : Int) = height - 2 ∧ (1 : Int) = width - 2))]
  rw [getCell_modifyCell, if_neg (by omega : ¬((1 : Int) = height - 2 ∧ (1 : Int) = width - 2))]
  rw [getCell_modifyCell, if_pos (⟨rfl, rfl⟩ : (1 : Int) = 1 ∧ (1 : Int) = 1)]
  rw [getCell_modifyCell, if_pos (⟨rfl, rfl⟩ : (1 : Int) = 1 ∧ (1 : Int) = 1)]
  rcases carve_mkGrid_evol width height rng (by omega) (by omega) 1 1 with h | ⟨_, h⟩ <;>
    rw [h, getCell_mkGrid, if_pos (by omega)] <;> rfl

theorem generateRandomMaze_stop {width height : Int} (rng : Nat → Nat)
    (hw : 11 ≤ width) (hh : 11 ≤ height) :
    getCell (generateRandomMaze width height rng).1 (height - 2) (width - 2) =
      some { x := width - 2, z := height - 2, isWall := false, isStart := false,
             isEnd := true, isPath := false, isVisited := false } := by
  rw [generateRandomMaze_maze_eq]
  rw [getCell_modifyCell,
    if_neg (by omega : ¬(height - 2 = height - 2 ∧ width - 2 = width - 2 - 1))]
  rw [getCell_modifyCell,
    if_neg (by omega : ¬(height - 2 = height - 2 - 1 ∧ width - 2 = width - 2))]
  rw [getCell_modifyCell, if_pos (⟨rfl, rfl⟩ : height - 2 = height - 2 ∧ width - 2 = width - 2)]
  rw [getCell_modifyCell, if_pos (⟨rfl, rfl⟩ : height - 2 = height - 2 ∧ width - 2 = width - 2)]
  rw [getCell_modifyCell, if_neg (by omega : ¬(height - 2 = 1 ∧ width - 2 = 1))]
  rw [getCell_modifyCell, if_neg (by omega : ¬(height - 2 = 1 ∧ width - 2 = 1))]
  rcases carve_mkGrid_evol width height rng (by omega) (by omega) (height - 2) (width - 2) with
    h | ⟨_, h⟩ <;>
    rw [h, getCell_mkGrid, if_pos (by omega)] <;> rfl

theorem generateRandomMaze_boundary {width height : Int} (rng : Nat → Nat)
    (hw : 11 ≤ width) (hh : 11 ≤ height) {z x : Int}
    (hz : 0 ≤ z ∧ z < height) (hx : 0 ≤ x ∧ x < width)
    (hbd : z = 0 ∨ z = height - 1 ∨ x = 0 ∨ x = width - 1) :
    getCell (generateRandomMaze width height rng).1 z x =
      some { x := x, z := z, isWall := true, isStart := false, isEnd := false,
             isPath := false, isVisited := false } := by
  rw [generateRandomMaze_maze_eq]
  rw [getCell_modifyCell, if_neg (by omega : ¬(z = height - 2 ∧ x = width - 2 - 1))]
  rw [getCell_modifyCell, if_neg (by omega : ¬(z = height - 2 - 1 ∧ x = width - 2))]
  rw [getCell_modifyCell, if_neg (by omega : ¬(z = height - 2 ∧ x = width - 2))]
  rw [getCell_modifyCell, if_neg (by omega : ¬(z = height - 2 ∧ x = width - 2))]
  rw [getCell_modifyCell, if_neg (by omega : ¬(z = 1 ∧ x = 1))]
  rw [getCell_modifyCell, if_neg (by omega : ¬(z = 1 ∧ x = 1))]
  rcases carve_mkGrid_evol width height rng (by omega) (by omega) z x with h | ⟨hint, h⟩
  · rw [h, getCell_mkGrid, if_pos (by omega)]
  · exfalso
    unfold interiorCell at hint
    omega

theorem generateRandomMaze_north_neighbor {width height : Int} (rng : Nat → Nat)
    (hw : 11 ≤ width) (hh : 11 ≤ height) :
    ∃ c, getCell (generateRandomMaze width height rng).1 (height - 3) (width - 2) = some c ∧
      c.isWall = false := by
  rw [generateRandomMaze_maze_eq]
  rw [getCell_modifyCell,
    if_neg (by omega : ¬(height - 3 = height - 2 ∧ width - 2 = width - 2 - 1))]
  rw [getCell_modifyCell,
    if_pos (⟨by omega, rfl⟩ : height - 3 = height - 2 - 1 ∧ width - 2 = width - 2)]
  rw [getCell_modifyCell, if_neg (by omega : ¬(height - 2 - 1 = height - 2 ∧ width - 2 = width - 2))]
  rw [getCell_modifyCell, if_neg (by omega : ¬(height - 2 - 1 = height - 2 ∧ width - 2 = width - 2))]
  rw [getCell_modifyCell, if_neg (by omega : ¬(height - 2 - 1 = 1 ∧ width - 2 = 1))]
  rw [getCell_modifyCell, if_neg (by omega : ¬(height - 2 - 1 = 1 ∧ width - 2 = 1))]
  rcases carve_mkGrid_evol width height rng (by omega) (by omega) (height - 2 - 1) (width - 2) with
    h | ⟨_, h⟩ <;> rw [h, getCell_mkGrid, if_pos (by omega)] <;>
    exact ⟨_, rfl, rfl⟩

theorem generateRandomMaze_west_neighbor {width height : Int} (rng : Nat → Nat)
    (hw : 11 ≤ width) (hh : 11 ≤ height) :
    ∃ c, getCell (generateRandomMaze width height rng).1 (height - 2) (width - 3) = some c ∧
      c.isWall = false := by
  rw [generateRandomMaze_maze_eq]
  rw [getCell_modifyCell,
    if_pos (⟨rfl, by omega⟩ : height - 2 = height - 2 ∧ width - 3 = width - 2 - 1)]
  rw [getCell_modifyCell,
    if_neg (by omega : ¬(height - 2 = height - 2 - 1 ∧ width - 2 - 1 = width - 2))]
  rw [getCell_modifyCell, if_neg (by omega : ¬(height - 2 = height - 2 ∧ width - 2 - 1 = width - 2))]
  rw [getCell_modifyCell, if_neg (by omega : ¬(height - 2 = height - 2 ∧ width - 2 - 1 = width - 2))]
  rw [getCell_modifyCell, if_neg (by omega : ¬(height - 2 = 1 ∧ width - 2 - 1 = 1))]
  rw [getCell_modifyCell, if_neg (by omega : ¬(height - 2 = 1 ∧ width - 2 - 1 = 1))]
  rcases carve_mkGrid_evol width height rng (by omega) (by omega) (height - 2) (width - 2 - 1) with
    h | ⟨_, h⟩ <;> rw [h, getCell_mkGrid, if_pos (by omega)] <;>
    exact ⟨_, rfl, rfl⟩

/-- Claim C9: for every odd width and height at least 11, and every stream
of random draws, `generateRandomMaze` force-opens BOTH interior neighbours
of the end cell `(width-2, height-2)`: afterwards the north neighbour
`(end.x, end.z-1)` and the west neighbour `(end.x-1, end.z)` both exist and
have `isWall = false`. -/
theorem claim9_end_neighbors_open {width height : Int} (rng : Nat → Nat)
    (_hwodd : width % 2 = 1) (_hhodd : height % 2 = 1)
    (hw : 11 ≤ width) (hh : 11 ≤ height) :
    (generateRandomMaze width height rng).2.2 = { x := width - 2, z := height - 2 } ∧
    (∃ c, getCell (generateRandomMaze width height rng).1 (height - 3) (width - 2) =
        some c ∧ c.isWall = false) ∧
    (∃ c, getCell (generateRandomMaze width height rng).1 (height - 2) (width - 3) =
        some c ∧ c.isWall = false) :=
  ⟨rfl, generateRandomMaze_north_neighbor rng hw hh,
    generateRandomMaze_west_neighbor rng hw hh⟩

theorem claim9_witness :
    ((11 : Int) % 2 = 1 ∧ (11 : Int) ≤ 11) ∧
    ((generateRandomMaze 11 11 (fun _ => 0)).2.2 = { x := 9, z := 9 } ∧
     (∃ c, getCell (generateRandomMaze 11 11 (fun _ => 0)).1 8 9 = some c ∧
        c.isWall = false) ∧
     (∃ c, getCell (generateRandomMaze 11 11 (fun _ => 0)).1 9 8 = some c ∧
        c.isWall = false)) :=
  ⟨⟨by decide, by decide⟩,
    claim9_end_neighbors_open (fun _ => 0) (by decide) (by decide) (by decide) (by decide)⟩

set_option maxRecDepth 8000 in
/-- Claim C1: for every maze produced by either generator (random with odd
dimensions at least 11, or any of the three catalog presets), the start cell
`(1,1)` is open and carries `isStart`, the end cell `(width-2, height-2)` is
open and carries `isEnd`, and every cell of the boundary ring is a wall. -/
theorem claim1_generator_invariants :
    (∀ (width height : Int) (rng : Nat → Nat),
      width % 2 = 1 → height % 2 = 1 → 11 ≤ width → 11 ≤ height →
      getCell (generateRandomMaze width height rng).1 1 1 =
        some { x := 1, z := 1, isWall := false, isStart := true, isEnd := false,
               isPath := false, isVisited := false } ∧
      getCell (generateRandomMaze width height rng).1 (height - 2) (width - 2) =
        some { x := width - 2, z := height - 2, isWall := false, isStart := false,
               isEnd := true, isPath := false, isVisited := false } ∧
      (∀ z x : Int, 0 ≤ z → z < height → 0 ≤ x → x < width →
        (z = 0 ∨ z = height - 1 ∨ x = 0 ∨ x = width - 1) →
        ∃ c, getCell (generateRandomMaze width height rng).1 z x = some c ∧
          c.isWall = true)) ∧
    (∀ i, i < PRESET_MAZES.length →
      getCell (buildPreset (PRESET_MAZES.getD i preset0)).maze 1 1 =
        some { x := 1, z := 1, isWall := false, isStart := true, isEnd := false,
               isPath := false, isVisited := false } ∧
      getCell (buildPreset (PRESET_MAZES.getD i preset0)).maze 13 13 =
        some { x := 13, z := 13, isWall := false, isStart := false, isEnd := true,
               isPath := false, isVisited := false } ∧
      (buildPreset (PRESET_MAZES.getD i preset0)).width = 15 ∧
      (buildPreset (PRESET_MAZES.getD i preset0)).height = 15 ∧
      (∀ z : Nat, z < 15 → ∀ x : Nat, x < 15 → (z = 0 ∨ z = 14 ∨ x = 0 ∨ x = 14) →
        (getCell (buildPreset (PRESET_MAZES.getD i preset0)).maze (z : Int) (x : Int)).any
          (fun c => c.isWall) = true)) := by
  constructor
  · intro width height rng hwodd hhodd hw hh
    refine ⟨generateRandomMaze_start rng hw hh, generateRandomMaze_stop rng hw hh, ?_⟩
    intro z x hz0 hzh hx0 hxw hbd
    exact ⟨_, generateRandomMaze_boundary rng hw hh ⟨hz0, hzh⟩ ⟨hx0, hxw⟩ hbd, rfl⟩
  · intro i hi
    have hi3 : i < 3 := hi
    interval_cases i <;> exact ⟨by decide, by decide, by decide, by decide, by decide⟩

theorem claim1_witness :
    ((11 : Int) % 2 = 1 ∧ (11 : Int) ≤ 11 ∧ 0 < PRESET_MAZES.length) ∧
    (getCell (generateRandomMaze 11 11 (fun _ => 0)).1 1 1 =
      some { x := 1, z := 1, isWall := false, isStart := true, isEnd := false,
             isPath := false, isVisited := false }) ∧
    (getCell (buildPreset (PRESET_MAZES.getD 0 preset0)).maze 1 1 =
      some { x := 1, z := 1, isWall := false, isStart := true, isEnd := false,
             isPath := false, isVisited := false }) :=
  ⟨⟨by decide, by decide, by decide⟩,
    (claim1_generator_invariants.1 11 11 (fun _ => 0)
      (by decide) (by decide) (by decide) (by decide)).1,
    (claim1_generator_invariants.2 0 (by decide)).1⟩

theorem setWallTrue_idem (c : MazeCell) :
    (fun cell => { cell with isWall := true })
      ((fun cell => { cell with isWall := true }) c) =
    (fun cell => { cell with isWall := true }) c := rfl

/-- Claim C7: when `createPresetMaze` lays a wall list onto the grid (the
`layWalls` loop inside `buildPreset`), a cell receives `isWall := true`
exactly when some listed pair passes the bounds guard and names its
coordinates; pairs failing the guard contribute nothing (and, trivially in
this total embedding, raise no error), and no other cell field changes.
The second conjunct checks that every pair of the actual catalog passes the
guard, i.e. the skip case never fires for the shipped presets. -/
theorem claim7_preset_walls_guarded :
    (∀ (height width : Int) (walls : List (Nat × Nat)) (m : Maze) (z x : Int),
      getCell (layWalls height width walls m) z x =
        if walls.any (fun zx => ((zx.1 : Int) < height ∧ (zx.2 : Int) < width) ∧
            (zx.1 : Int) = z ∧ (zx.2 : Int) = x) then
          (getCell m z x).map (fun cell => { cell with isWall := true })
        else getCell m z x) ∧
    (PRESET_MAZES.all (fun p => p.walls.all
      (fun zx => ((zx.1 : Int) < p.height ∧ (zx.2 : Int) < p.width : Bool))) = true) := by
  constructor
  · intro height width walls
    induction walls with
    | nil => intro m z x; simp [layWalls]
    | cons zx rest ih =>
      intro m z x
      have hstep : layWalls height width (zx :: rest) m =
          layWalls height width rest
            (if (zx.1 : Int) < height ∧ (zx.2 : Int) < width then
              modifyCell m zx.1 zx.2 (fun cell => { cell with isWall := true })
            else m) := rfl
      rw [hstep, ih]
      by_cases hin : (zx.1 : Int) < height ∧ (zx.2 : Int) < width
      · rw [if_pos hin]
        by_cases hmatch : (zx.1 : Int) = z ∧ (zx.2 : Int) = x
        · obtain ⟨hz, hx⟩ := hmatch
          have hhead : ((zx :: rest).any (fun p => decide
              (((p.1 : Int) < height ∧ (p.2 : Int) < width) ∧
                (p.1 : Int) = z ∧ (p.2 : Int) = x))) = true := by
            rw [List.any_cons, Bool.or_eq_true]
            exact Or.inl (by simp only [decide_eq_true_eq]; exact ⟨hin, hz, hx⟩)
          rw [hhead, if_pos rfl]
          have hm1 : getCell (modifyCell m zx.1 zx.2
              (fun cell => { cell with isWall := true })) z x =
              (getCell m z x).map (fun cell => { cell with isWall := true }) := by
            rw [getCell_modifyCell, if_pos ⟨hz.symm, hx.symm⟩, hz, hx]
          rw [hm1]
          by_cases hrest : (rest.any (fun p => decide
              (((p.1 : Int) < height ∧ (p.2 : Int) < width) ∧
                (p.1 : Int) = z ∧ (p.2 : Int) = x))) = true
          · rw [if_pos hrest]
            cases getCell m z x <;> rfl
          · rw [if_neg hrest]
        · have hm1 : getCell (modifyCell m zx.1 zx.2
              (fun cell => { cell with isWall := true })) z x = getCell m z x := by
            rw [getCell_modifyCell,
              if_neg (fun hc => hmatch ⟨hc.1.symm, hc.2.symm⟩)]
          rw [hm1]
          have hzero : (decide ((((zx.1 : Int) < height ∧ (zx.2 : Int) < width) ∧
              (zx.1 : Int) = z ∧ (zx.2 : Int) = x))) = false := by
            rw [decide_eq_false_iff_not]
            rintro ⟨_, hm⟩
            exact hmatch hm
          rw [List.any_cons, hzero, Bool.false_or]
      · rw [if_neg hin]
        have hzero : (decide ((((zx.1 : Int) < height ∧ (zx.2 : Int) < width) ∧
            (zx.1 : Int) = z ∧ (zx.2 : Int) = x))) = false := by
          rw [decide_eq_false_iff_not]
          rintro ⟨hi, _⟩
          exact hin hi
        rw [List.any_cons, hzero, Bool.false_or]
  · decide

/-- The state installed by a successful `loadPresetMaze`: the generated
grid and endpoints replace the session's, and every cursor, overlay source
and stat is reset. -/
def presetLoadedState (r : PresetResult) (s : MazeState) : MazeState :=
  { s with
    maze := r.maze
    mazeWidth := r.width
    mazeHeight := r.height
    startPos := r.start
    endPos := r.stop
    ballPosition := r.start
    path := []
    visitedCells := []
    pathIndex := 0
    stats := none
    visualizationIndex := 0 }

theorem loadPresetMaze_eq_map (preset : Int) (s : MazeState) :
    loadPresetMaze preset s =
      (createPresetMaze preset).map (fun r => presetLoadedState r s) := rfl

/-- Claim C6, corrected.  `createPresetMaze` computes
`PRESET_MAZES[preset % 3]` with the JS truncated remainder, so whenever that
remainder is non-negative (every `preset ≥ 0`, and every negative multiple
of 3, where JS yields `-0`) the load succeeds and installs the selected
catalog entry; see `claim6_counterexample` for the fatal negative case. -/
theorem claim6_preset_modulo (preset : Int) (s : MazeState)
    (h : 0 ≤ preset.tmod (PRESET_MAZES.length : Int)) :
    ∃ p, PRESET_MAZES[(preset.tmod (PRESET_MAZES.length : Int)).toNat]? = some p ∧
      createPresetMaze preset = some (buildPreset p) ∧
      loadPresetMaze preset s = some (presetLoadedState (buildPreset p) s) := by
  have hlt : preset.tmod (PRESET_MAZES.length : Int) < 3 :=
    Int.tmod_lt_of_pos preset (by decide)
  have hbuild : createPresetMaze preset =
      (PRESET_MAZES[(preset.tmod (PRESET_MAZES.length : Int)).toNat]?).map buildPreset := by
    simp only [createPresetMaze]
    rw [if_pos h]
  have hcases : (preset.tmod (PRESET_MAZES.length : Int)).toNat = 0 ∨
      (preset.tmod (PRESET_MAZES.length : Int)).toNat = 1 ∨
      (preset.tmod (PRESET_MAZES.length : Int)).toNat = 2 := by
    omega
  rcases hcases with h0 | h0 | h0
  · exact ⟨preset0, by rw [h0]; rfl, by rw [hbuild, h0]; rfl,
      by rw [loadPresetMaze_eq_map, hbuild, h0]; rfl⟩
  · exact ⟨preset1, by rw [h0]; rfl, by rw [hbuild, h0]; rfl,
      by rw [loadPresetMaze_eq_map, hbuild, h0]; rfl⟩
  · exact ⟨preset2, by rw [h0]; rfl, by rw [hbuild, h0]; rfl,
      by rw [loadPresetMaze_eq_map, hbuild, h0]; rfl⟩

/-- Claim C6 as stated is false: `loadPresetMaze(-1)` does not complete
normally.  JS computes `-1 % 3 = -1`, `PRESET_MAZES[-1]` is `undefined`,
and destructuring it throws a `TypeError` (modelled by `none`). -/
theorem claim6_counterexample :
    loadPresetMaze (-1) initialState = none ∧ (-1 : Int).tmod 3 = -1 := by
  constructor
  · rfl
  · decide

theorem claim6_witness :
    (0 ≤ (4 : Int).tmod (PRESET_MAZES.length : Int)) ∧
    (∃ p, PRESET_MAZES[((4 : Int).tmod (PRESET_MAZES.length : Int)).toNat]? = some p ∧
      createPresetMaze 4 = some (buildPreset p) ∧
      loadPresetMaze 4 initialState = some (presetLoadedState (buildPreset p) initialState)) :=
  ⟨by decide, claim6_preset_modulo 4 initialState (by decide)⟩

/-- Iterate the state component of `moveBall` (the external render loop
calling it repeatedly). -/
def moveBallIter : Nat → MazeState → MazeState
  | 0, s => s
  | n + 1, s => moveBallIter n (moveBall s).1

theorem moveBall_snd_true {s : MazeState} (h : s.pathIndex < s.path.length) :
    (moveBall s).2 = true := by
  unfold moveBall
  rw [dif_pos h]

theorem moveBall_of_exhausted {s : MazeState} (h : ¬s.pathIndex < s.path.length) :
    moveBall s = (s, false) := by
  unfold moveBall
  rw [dif_neg h]

theorem moveBallIter_spec : ∀ (k : Nat) (s : MazeState),
    s.pathIndex + k ≤ s.path.length →
    (moveBallIter k s).path = s.path ∧
    (moveBallIter k s).pathIndex = s.pathIndex + k ∧
    (k = 0 ∨ s.path.get? (s.pathIndex + k - 1) = some ((moveBallIter k s).ballPosition)) := by
  intro k
  induction k with
  | zero => intro s _; exact ⟨rfl, rfl, Or.inl rfl⟩
  | succ k ih =>
    intro s hk
    have hlt : s.pathIndex < s.path.length := by omega
    have hstep : (moveBall s).1 =
        { s with ballPosition := s.path.get ⟨s.pathIndex, hlt⟩,
                 pathIndex := s.pathIndex + 1 } := by
      unfold moveBall
      rw [dif_pos hlt]
    have hiter : moveBallIter (k + 1) s = moveBallIter k (moveBall s).1 := rfl
    rw [hiter, hstep]
    obtain ⟨hpath, hidx, hpos⟩ := ih
      { s with ballPosition := s.path.get ⟨s.pathIndex, hlt⟩,
               pathIndex := s.pathIndex + 1 }
      (show s.pathIndex + 1 + k ≤ s.path.length from by omega)
    refine ⟨hpath, ?_, Or.inr ?_⟩
    · rw [hidx]
      show s.pathIndex + 1 + k = s.pathIndex + (k + 1)
      omega
    rcases hpos with h0 | hsome
    · subst h0
      have hzero : moveBallIter 0
          { s with ballPosition := s.path.get ⟨s.pathIndex, hlt⟩,
                   pathIndex := s.pathIndex + 1 } =
          { s with ballPosition := s.path.get ⟨s.pathIndex, hlt⟩,
                   pathIndex := s.pathIndex + 1 } := rfl
      rw [hzero]
      show s.path.get? (s.pathIndex + 1 - 1) = some (s.path.get ⟨s.pathIndex, hlt⟩)
      rw [show s.pathIndex + 1 - 1 = s.pathIndex from by omega]
      exact List.get?_eq_get hlt
    · show s.path.get? (s.pathIndex + (k + 1) - 1) = _
      rw [show s.pathIndex + (k + 1) - 1 = s.pathIndex + 1 + k - 1 from by omega]
      exact hsome

/-- Claim C4: starting from `pathIndex = 0` as established by `startMoving`,
with a non-empty path of length `n`, the `n`-th iterate of `moveBall` has
`pathIndex = n` and the agent at `path[n-1]`, every one of the `n` calls
returns `true`, and one further call returns `false` and changes nothing. -/
theorem claim4_moveBall_walks_path (s0 : MazeState) (n : Nat)
    (hlen : s0.path.length = n) (hpos : 0 < n) :
    (∀ k, k < n → (moveBall (moveBallIter k (startMoving s0))).2 = true) ∧
    (moveBallIter n (startMoving s0)).pathIndex = n ∧
    s0.path.get? (n - 1) = some ((moveBallIter n (startMoving s0)).ballPosition) ∧
    moveBall (moveBallIter n (startMoving s0)) = (moveBallIter n (startMoving s0), false) := by
  have hstart : (startMoving s0).path = s0.path ∧ (startMoving s0).pathIndex = 0 :=
    ⟨rfl, rfl⟩
  refine ⟨?_, ?_, ?_, ?_⟩
  · intro k hk
    obtain ⟨hpath, hidx, _⟩ := moveBallIter_spec k (startMoving s0)
      (by rw [hstart.1, hstart.2, hlen]; omega)
    apply moveBall_snd_true
    rw [hpath, hidx, hstart.1, hstart.2, hlen]
    omega
  · obtain ⟨_, hidx, _⟩ := moveBallIter_spec n (startMoving s0)
      (by rw [hstart.1, hstart.2, hlen]; omega)
    rw [hidx, hstart.2]
    omega
  · obtain ⟨_, _, hpos'⟩ := moveBallIter_spec n (startMoving s0)
      (by rw [hstart.1, hstart.2, hlen]; omega)
    rcases hpos' with h0 | hsome
    · omega
    · rw [show (startMoving s0).pathIndex + n - 1 = n - 1 from by
        rw [hstart.2]; omega] at hsome
      exact hsome
  · obtain ⟨hpath, hidx, _⟩ := moveBallIter_spec n (startMoving s0)
      (by rw [hstart.1, hstart.2, hlen]; omega)
    apply moveBall_of_exhausted
    rw [hpath, hidx, hstart.1, hstart.2, hlen]
    omega

theorem claim4_witness :
    ({ initialState with path :=
        [{ x := 1, z := 1 }, { x := 1, z := 2 }] } : MazeState).path.length = 2 ∧
    0 < 2 ∧
    ((∀ k, k < 2 → (moveBall (moveBallIter k (startMoving
        { initialState with path := [{ x := 1, z := 1 }, { x := 1, z := 2 }] }))).2 = true) ∧
      (moveBallIter 2 (startMoving
        { initialState with path := [{ x := 1, z := 1 }, { x := 1, z := 2 }] })).pathIndex = 2 ∧
      ({ initialState with path :=
        [{ x := 1, z := 1 }, { x := 1, z := 2 }] } : MazeState).path.get? 1 =
        some ((moveBallIter 2 (startMoving
          { initialState with path := [{ x := 1, z := 1 }, { x := 1, z := 2 }] })).ballPosition) ∧
      moveBall (moveBallIter 2 (startMoving
        { initialState with path := [{ x := 1, z := 1 }, { x := 1, z := 2 }] })) =
        (moveBallIter 2 (startMoving
          { initialState with path := [{ x := 1, z := 1 }, { x := 1, z := 2 }] }), false)) :=
  ⟨rfl, by decide,
    claim4_moveBall_walks_path
      { initialState with path := [{ x := 1, z := 1 }, { x := 1, z := 2 }] } 2 rfl (by decide)⟩

/-- Claim C8: `moveBall` never changes the phase (completion happens only
through `complete`), a successful call changes only `ballPosition` and
`pathIndex`, and an exhausted call changes nothing at all. -/
theorem claim8_moveBall_frame (s : MazeState) :
    (moveBall s).1.phase = s.phase ∧
    ((moveBall s).2 = true →
      (moveBall s).1.maze = s.maze ∧
      (moveBall s).1.path = s.path ∧
      (moveBall s).1.visitedCells = s.visitedCells ∧
      (moveBall s).1.stats = s.stats ∧
      (moveBall s).1.visualizationIndex = s.visualizationIndex ∧
      (moveBall s).1.selectedAlgorithm = s.selectedAlgorithm ∧
      (moveBall s).1.mazeWidth = s.mazeWidth ∧
      (moveBall s).1.mazeHeight = s.mazeHeight ∧
      (moveBall s).1.startPos = s.startPos ∧
      (moveBall s).1.endPos = s.endPos ∧
      (moveBall s).1.visualizationMode = s.visualizationMode ∧
      (moveBall s).1.difficulty = s.difficulty) ∧
    ((moveBall s).2 = false → (moveBall s).1 = s) ∧
    complete s = { s with phase := .completed } := by
  unfold moveBall
  by_cases h : s.pathIndex < s.path.length
  · rw [dif_pos h]
    refine ⟨rfl,
      fun _ => ⟨rfl, rfl, rfl, rfl, rfl, rfl, rfl, rfl, rfl, rfl, rfl, rfl⟩,
      fun hfalse => Bool.noConfusion hfalse, rfl⟩
  · rw [dif_neg h]
    exact ⟨rfl, fun htrue => Bool.noConfusion htrue, fun _ => rfl, rfl⟩

theorem claim8_witness :
    ((moveBall { initialState with path := [{ x := 1, z := 1 }] }).2 = true) ∧
    (moveBall { initialState with path := [{ x := 1, z := 1 }] }).1.phase =
      ({ initialState with path := [{ x := 1, z := 1 }] } : MazeState).phase ∧
    (moveBall { initialState with path := [{ x := 1, z := 1 }] }).1.maze =
      ({ initialState with path := [{ x := 1, z := 1 }] } : MazeState).maze :=
  ⟨rfl,
    (claim8_moveBall_frame { initialState with path := [{ x := 1, z := 1 }] }).1,
    ((claim8_moveBall_frame { initialState with path := [{ x := 1, z := 1 }] }).2.1 rfl).1⟩

/-- Claim C5, corrected: the timer callbacks installed by GameOverlay
(`() => startVisualization()` after a step-mode solve, `() => startMoving()`
after an instant-mode solve or after visualization exhaustion) contain no
phase guard: fired after `restart()` returned the session to the menu
phase, they still mutate state — `startMoving` moves the phase to `moving`
and `startVisualization` to `visualizing` from any phase whatsoever.
Dangling firings are prevented only by the menu-phase cleanup effect
clearing the stored timeout/interval handles (ownership), not by guards
inside the callbacks. -/
theorem claim5_callbacks_unguarded (s : MazeState) (h : s.phase = GamePhase.menu) :
    (startMoving s).phase = GamePhase.moving ∧ (startMoving s).phase ≠ s.phase ∧
    (startVisualization s).phase = GamePhase.visualizing ∧
    (startVisualization s).phase ≠ s.phase := by
  rw [show (startMoving s).phase = GamePhase.moving from rfl,
    show (startVisualization s).phase = GamePhase.visualizing from rfl, h]
  exact ⟨rfl, by decide, rfl, by decide⟩

/-- Claim C5 as stated is false at a concrete input: the menu-phase initial
state is mutated by a dangling `startMoving` timer callback. -/
theorem claim5_counterexample :
    initialState.phase = GamePhase.menu ∧
    (startMoving initialState).phase = GamePhase.moving ∧
    startMoving initialState ≠ initialState :=
  ⟨rfl, rfl, fun h => by
    have := congrArg MazeState.phase h
    exact absurd this (by decide)⟩

theorem claim5_witness :
    initialState.phase = GamePhase.menu ∧
    ((startMoving initialState).phase = GamePhase.moving ∧
     (startMoving initialState).phase ≠ initialState.phase ∧
     (startVisualization initialState).phase = GamePhase.visualizing ∧
     (startVisualization initialState).phase ≠ initialState.phase) :=
  ⟨rfl, claim5_callbacks_unguarded initialState rfl⟩

theorem getCell_foldl_flag (f : MazeCell → MazeCell) (hf : ∀ c, f (f c) = f c) :
    ∀ (ps : List Position) (m : Maze) (z x : Int),
      getCell (ps.foldl (fun acc pos => modifyCell acc pos.z pos.x f) m) z x =
        if ps.any (fun pos => pos.z == z && pos.x == x) then (getCell m z x).map f
        else getCell m z x := by
  intro ps
  induction ps with
  | nil => intro m z x; simp
  | cons pos rest ih =>
    intro m z x
    have hstep : (pos :: rest).foldl (fun acc p => modifyCell acc p.z p.x f) m =
        rest.foldl (fun acc p => modifyCell acc p.z p.x f) (modifyCell m pos.z pos.x f) := rfl
    rw [hstep, ih]
    by_cases hmatch : pos.z = z ∧ pos.x = x
    · obtain ⟨hz, hx⟩ := hmatch
      have hcell : getCell (modifyCell m pos.z pos.x f) z x = (getCell m z x).map f := by
        rw [getCell_modifyCell, if_pos ⟨hz.symm, hx.symm⟩, hz, hx]
      rw [hcell]
      have hhead : ((pos :: rest).any fun p => p.z == z && p.x == x) = true := by
        rw [List.any_cons, Bool.or_eq_true]
        exact Or.inl (by rw [Bool.and_eq_true, beq_iff_eq, beq_iff_eq]; exact ⟨hz, hx⟩)
      rw [hhead, if_pos rfl]
      by_cases hrest : (rest.any fun p => p.z == z && p.x == x) = true
      · rw [if_pos hrest]
        cases getCell m z x with
        | none => rfl
        | some c =>
          simp only [Option.map_some']
          rw [hf]
      · rw [if_neg hrest]
    · have hcell : getCell (modifyCell m pos.z pos.x f) z x = getCell m z x := by
        rw [getCell_modifyCell, if_neg (fun hc => hmatch ⟨hc.1.symm, hc.2.symm⟩)]
      rw [hcell]
      have hh : (pos.z == z && pos.x == x) = false := by
        rw [Bool.eq_false_iff]
        intro hb
        rw [Bool.and_eq_true, beq_iff_eq, beq_iff_eq] at hb
        exact hmatch hb
      rw [List.any_cons, hh, Bool.false_or]

theorem getCell_markPathCells (path : List Position) (m : Maze) (z x : Int) :
    getCell (markPathCells path m) z x =
      if path.any (fun pos => pos.z == z && pos.x == x) then
        (getCell m z x).map (fun cell => { cell with isPath := true })
      else getCell m z x :=
  getCell_foldl_flag (fun cell => { cell with isPath := true }) (fun _ => rfl) path m z x

theorem getCell_setPath_maze (path : List Position) (s : MazeState) (z x : Int) :
    getCell (setPath path s).maze z x =
      (getCell s.maze z x).map (fun cell =>
        { cell with isPath := path.any (fun pos => pos.z == z && pos.x == x) }) := by
  have hmaze : (setPath path s).maze =
      markPathCells path
        (s.maze.map (fun row => row.map (fun cell => { cell with isPath := false }))) := rfl
  rw [hmaze, getCell_markPathCells]
  by_cases hany : (path.any fun pos => pos.z == z && pos.x == x) = true
  · rw [if_pos hany, getCell_mapRows, hany]
    cases getCell s.maze z x <;> rfl
  · rw [if_neg hany, getCell_mapRows, Bool.eq_false_iff.mpr hany]

theorem getCell_setVisitedCells_maze (cells : List Position) (s : MazeState) (z x : Int) :
    getCell (setVisitedCells cells s).maze z x =
      (getCell s.maze z x).map (fun cell =>
        { cell with isVisited := cells.any (fun pos => pos.z == z && pos.x == x) }) := by
  have hmaze : (setVisitedCells cells s).maze =
      cells.foldl
        (fun acc pos => modifyCell acc pos.z pos.x (fun cell => { cell with isVisited := true }))
        (s.maze.map (fun row => row.map (fun cell => { cell with isVisited := false }))) := rfl
  rw [hmaze, getCell_foldl_flag (fun cell => { cell with isVisited := true }) (fun _ => rfl)]
  by_cases hany : (cells.any fun pos => pos.z == z && pos.x == x) = true
  · rw [if_pos hany, getCell_mapRows, hany]
    cases getCell s.maze z x <;> rfl
  · rw [if_neg hany, getCell_mapRows, Bool.eq_false_iff.mpr hany]

theorem any_coord_iff (ps : List Position) (z x : Int) :
    (ps.any fun pos => pos.z == z && pos.x == x) = true ↔
      ∃ pos, pos ∈ ps ∧ pos.z = z ∧ pos.x = x := by
  rw [List.any_eq_true]
  constructor
  · rintro ⟨pos, hmem, hb⟩
    rw [Bool.and_eq_true, beq_iff_eq, beq_iff_eq] at hb
    exact ⟨pos, hmem, hb⟩
  · rintro ⟨pos, hmem, hz, hx⟩
    exact ⟨pos, hmem, by rw [Bool.and_eq_true, beq_iff_eq, beq_iff_eq]; exact ⟨hz, hx⟩⟩

/-- Claim C2: `setPath` (resp. `setVisitedCells`) first clears the
`isPath` (resp. `isVisited`) flag everywhere and then sets it exactly on
the supplied coordinates that exist in the grid: afterwards a cell carries
the flag iff its coordinates appear in the supplied list, out-of-range
entries are skipped (they name no cell, and the guarded write is a no-op),
the grid keeps its shape (`none` stays `none`), no other cell field
changes, and no state field other than the recorded list and the maze
changes. -/
theorem claim2_overlay_exactness (p cs : List Position) (s : MazeState) :
    (∀ z x : Int, getCell (setPath p s).maze z x =
      (getCell s.maze z x).map (fun cell =>
        { cell with isPath := p.any (fun pos => pos.z == z && pos.x == x) })) ∧
    (∀ z x : Int, ∀ c, getCell (setPath p s).maze z x = some c →
      (c.isPath = true ↔ ∃ pos, pos ∈ p ∧ pos.z = z ∧ pos.x = x)) ∧
    (setPath p s).path = p ∧
    (setPath p s).phase = s.phase ∧ (setPath p s).visitedCells = s.visitedCells ∧
    (setPath p s).pathIndex = s.pathIndex ∧
    (setPath p s).visualizationIndex = s.visualizationIndex ∧
    (setPath p s).ballPosition = s.ballPosition ∧ (setPath p s).stats = s.stats ∧
    (∀ z x : Int, getCell (setVisitedCells cs s).maze z x =
      (getCell s.maze z x).map (fun cell =>
        { cell with isVisited := cs.any (fun pos => pos.z == z && pos.x == x) })) ∧
    (∀ z x : Int, ∀ c, getCell (setVisitedCells cs s).maze z x = some c →
      (c.isVisited = true ↔ ∃ pos, pos ∈ cs ∧ pos.z = z ∧ pos.x = x)) ∧
    (setVisitedCells cs s).visitedCells = cs ∧
    (setVisitedCells cs s).path = s.path ∧
    (setVisitedCells cs s).phase = s.phase ∧
    (setVisitedCells cs s).pathIndex = s.pathIndex ∧
    (setVisitedCells cs s).visualizationIndex = s.visualizationIndex ∧
    (setVisitedCells cs s).ballPosition = s.ballPosition ∧
    (setVisitedCells cs s).stats = s.stats := by
  refine ⟨getCell_setPath_maze p s, ?_, rfl, rfl, rfl, rfl, rfl, rfl, rfl,
    getCell_setVisitedCells_maze cs s, ?_, rfl, rfl, rfl, rfl, rfl, rfl, rfl⟩
  · intro z x c hc
    rw [getCell_setPath_maze p s z x] at hc
    rcases Option.map_eq_some'.mp hc with ⟨c₀, _, rfl⟩
    rw [show ({ c₀ with
        isPath := p.any (fun pos => pos.z == z && pos.x == x) } : MazeCell).isPath =
      p.any (fun pos => pos.z == z && pos.x == x) from rfl]
    exact any_coord_iff p z x
  · intro z x c hc
    rw [getCell_setVisitedCells_maze cs s z x] at hc
    rcases Option.map_eq_some'.mp hc with ⟨c₀, _, rfl⟩
    rw [show ({ c₀ with
        isVisited := cs.any (fun pos => pos.z == z && pos.x == x) } : MazeCell).isVisited =
      cs.any (fun pos => pos.z == z && pos.x == x) from rfl]
    exact any_coord_iff cs z x

set_option maxRecDepth 8000 in
theorem claim2_witness :
    (getCell (setPath [{ x := 1, z := 1 }] initialState).maze 1 1 =
      some { x := 1, z := 1, isWall := false, isStart := true, isEnd := false,
             isPath := true, isVisited := false }) ∧
    (({ x := 1, z := 1, isWall := false, isStart := true, isEnd := false,
        isPath := true, isVisited := false } : MazeCell).isPath = true ↔
      ∃ pos, pos ∈ [({ x := 1, z := 1 } : Position)] ∧ pos.z = 1 ∧ pos.x = 1) :=
  ⟨by decide,
    (claim2_overlay_exactness [{ x := 1, z := 1 }] [] initialState).2.1 1 1
      { x := 1, z := 1, isWall := false, isStart := true, isEnd := false,
        isPath := true, isVisited := false } (by decide)⟩

theorem getCell_copyRows (m : Maze) (z x : Int) :
    getCell (m.map (fun row => row.map (fun cell => cell))) z x = getCell m z x := by
  rw [getCell_mapRows]
  cases getCell m z x <;> rfl

/-- No cell of `m` carries the `isPath` overlay. -/
def noPathFlags (m : Maze) : Prop :=
  ∀ z x : Int, ∀ c, getCell m z x = some c → c.isPath = false

theorem noPathFlags_modifyCell {m : Maze} (hm : noPathFlags m) {z x : Int}
    {f : MazeCell → MazeCell} (hf : ∀ c, (f c).isPath = c.isPath) :
    noPathFlags (modifyCell m z x f) := by
  intro z' x' c hc
  rw [getCell_modifyCell] at hc
  by_cases hq : z' = z ∧ x' = x
  · rw [if_pos hq] at hc
    rcases Option.map_eq_some'.mp hc with ⟨c₀, hc₀, rfl⟩
    rw [hf]
    exact hm _ _ _ hc₀
  · rw [if_neg hq] at hc
    exact hm _ _ _ hc

theorem noPathFlags_mkGrid (w h : Int) (wall : Bool) : noPathFlags (mkGrid w h wall) := by
  intro z x c hc
  rw [getCell_mkGrid] at hc
  by_cases hin : 0 ≤ z ∧ z < h ∧ 0 ≤ x ∧ x < w
  · rw [if_pos hin] at hc
    cases hc
    rfl
  · rw [if_neg hin] at hc
    cases hc

theorem noPathFlags_cellEvol {w h : Int} {m₁ m₂ : Maze} (he : cellEvol w h m₁ m₂)
    (hm : noPathFlags m₁) : noPathFlags m₂ := by
  intro z x c hc
  rcases he z x with heq | ⟨_, heq⟩
  · rw [heq] at hc
    exact hm _ _ _ hc
  · rw [heq] at hc
    rcases Option.map_eq_some'.mp hc with ⟨c₀, hc₀, rfl⟩
    show c₀.isPath = false
    exact hm _ _ _ hc₀

theorem noPathFlags_generateRandomMaze (w h : Int) (rng : Nat → Nat)
    (hw : 3 ≤ w) (hh : 3 ≤ h) :
    noPathFlags (generateRandomMaze w h rng).1 := by
  rw [generateRandomMaze_maze_eq]
  refine noPathFlags_modifyCell ?_ (fun _ => rfl)
  refine noPathFlags_modifyCell ?_ (fun _ => rfl)
  refine noPathFlags_modifyCell ?_ (fun _ => rfl)
  refine noPathFlags_modifyCell ?_ (fun _ => rfl)
  refine noPathFlags_modifyCell ?_ (fun _ => rfl)
  refine noPathFlags_modifyCell ?_ (fun _ => rfl)
  exact noPathFlags_cellEvol (carve_mkGrid_evol w h rng hw hh)
    (noPathFlags_mkGrid w h true)

theorem noPathFlags_layWalls {hgt wid : Int} {walls : List (Nat × Nat)} {m : Maze}
    (hm : noPathFlags m) : noPathFlags (layWalls hgt wid walls m) := by
  unfold layWalls
  refine foldl_induction _ noPathFlags walls m hm ?_
  intro zx _ acc hacc
  by_cases hg : (zx.1 : Int) < hgt ∧ (zx.2 : Int) < wid
  · rw [if_pos hg]
    exact noPathFlags_modifyCell hacc (fun _ => rfl)
  · rw [if_neg hg]
    exact hacc

theorem buildPreset_maze_eq (p : PresetSpec) :
    (buildPreset p).maze =
      modifyCell (modifyCell (modifyCell (modifyCell
        (layWalls p.height p.width p.walls
          ((List.range p.height.toNat).foldl
            (fun acc z => modifyCell
              (modifyCell acc z 0 (fun cell => { cell with isWall := true }))
              z (p.width - 1) (fun cell => { cell with isWall := true }))
            ((List.range p.width.toNat).foldl
              (fun acc x => modifyCell
                (modifyCell acc 0 x (fun cell => { cell with isWall := true }))
                (p.height - 1) x (fun cell => { cell with isWall := true }))
              (mkGrid p.width p.height false))))
        1 1 (fun cell => { cell with isStart := true }))
        1 1 (fun cell => { cell with isWall := false }))
        (p.height - 2) (p.width - 2) (fun cell => { cell with isEnd := true }))
        (p.height - 2) (p.width - 2) (fun cell => { cell with isWall := false }) := rfl

theorem noPathFlags_buildPreset (p : PresetSpec) : noPathFlags (buildPreset p).maze := by
  rw [buildPreset_maze_eq]
  refine noPathFlags_modifyCell ?_ (fun _ => rfl)
  refine noPathFlags_modifyCell ?_ (fun _ => rfl)
  refine noPathFlags_modifyCell ?_ (fun _ => rfl)
  refine noPathFlags_modifyCell ?_ (fun _ => rfl)
  refine noPathFlags_layWalls ?_
  refine foldl_induction _ noPathFlags _ _ ?_ ?_
  · refine foldl_induction _ noPathFlags _ _ (noPathFlags_mkGrid _ _ _) ?_
    intro a _ acc hacc
    refine noPathFlags_modifyCell ?_ (fun _ => rfl)
    exact noPathFlags_modifyCell hacc (fun _ => rfl)
  · intro a _ acc hacc
    refine noPathFlags_modifyCell ?_ (fun _ => rfl)
    exact noPathFlags_modifyCell hacc (fun _ => rfl)

theorem createPresetMaze_eq_some {i : Int} {r : PresetResult}
    (h : createPresetMaze i = some r) : ∃ p, p ∈ PRESET_MAZES ∧ r = buildPreset p := by
  simp only [createPresetMaze] at h
  rcases Option.map_eq_some'.mp h with ⟨p, hp', hp⟩
  refine ⟨p, ?_, hp.symm⟩
  by_cases hge : 0 ≤ Int.tmod i (PRESET_MAZES.length : Int)
  · rw [if_pos hge] at hp'
    exact List.getElem?_mem hp'
  · rw [if_neg hge] at hp'
    exact Option.noConfusion hp'

/-- The `isPath` overlay is always a subset of the stored path: the key
invariant behind "after exhaustion the overlay equals the path exactly". -/
def pathFlagSub (s : MazeState) : Prop :=
  ∀ z x : Int, ∀ c, getCell s.maze z x = some c → c.isPath = true →
    ∃ pos, pos ∈ s.path ∧ pos.z = z ∧ pos.x = x

set_option maxRecDepth 4000 in
theorem pathFlagSub_reachable : ∀ s : MazeState, Reachable s → pathFlagSub s := by
  intro s h
  induction h with
  | init =>
    intro z x c hc hp
    have hno := noPathFlags_buildPreset preset0 z x c hc
    rw [hno] at hp
    exact Bool.noConfusion hp
  | @next s h op ih =>
    clear h
    cases op with
    | setAlgorithm a => exact ih
    | setVisualizationMode m => exact ih
    | setDifficulty d => exact ih
    | startGame =>
      show pathFlagSub (startGame s)
      unfold startGame
      split
      · exact ih
      · exact ih
    | setPath p =>
      intro z x c hc hp
      rw [show (applyOp (Op.setPath p) s).maze = (setPath p s).maze from rfl,
        getCell_setPath_maze] at hc
      rcases Option.map_eq_some'.mp hc with ⟨c₀, _, rfl⟩
      have hany : (p.any fun pos => pos.z == z && pos.x == x) = true := hp
      exact (any_coord_iff p z x).mp hany
    | setVisitedCells cs =>
      intro z x c hc hp
      rw [show (applyOp (Op.setVisitedCells cs) s).maze = (setVisitedCells cs s).maze from rfl,
        getCell_setVisitedCells_maze] at hc
      rcases Option.map_eq_some'.mp hc with ⟨c₀, hc₀, rfl⟩
      exact ih z x c₀ hc₀ hp
    | storeVisitedCells cs => exact ih
    | setStats st => exact ih
    | startVisualization =>
      intro z x c hc hp
      rw [show (applyOp Op.startVisualization s).maze = s.maze.map (fun row => row.map
        (fun cell => { cell with isVisited := false, isPath := false })) from rfl,
        getCell_mapRows] at hc
      rcases Option.map_eq_some'.mp hc with ⟨c₀, _, rfl⟩
      exact Bool.noConfusion hp
    | advanceVisualization =>
      show pathFlagSub (advanceVisualization s).1
      unfold advanceVisualization
      by_cases hlt : s.visualizationIndex < s.visitedCells.length
      · rw [dif_pos hlt]
        intro z x c hc hp
        rw [getCell_modifyCell] at hc
        by_cases hq : z = (s.visitedCells.get ⟨s.visualizationIndex, hlt⟩).z ∧
            x = (s.visitedCells.get ⟨s.visualizationIndex, hlt⟩).x
        · rw [if_pos hq, getCell_copyRows] at hc
          obtain ⟨hz, hx⟩ := hq
          subst hz
          subst hx
          rcases Option.map_eq_some'.mp hc with ⟨c₀, hc₀, rfl⟩
          exact ih _ _ c₀ hc₀ hp
        · rw [if_neg hq, getCell_copyRows] at hc
          exact ih z x c hc hp
      · rw [dif_neg hlt]
        intro z x c hc hp
        rw [getCell_markPathCells] at hc
        by_cases hany : (s.path.any fun pos => pos.z == z && pos.x == x) = true
        · exact (any_coord_iff s.path z x).mp hany
        · rw [if_neg hany, getCell_copyRows] at hc
          exact ih z x c hc hp
    | startMoving => exact ih
    | moveBall =>
      show pathFlagSub (moveBall s).1
      unfold moveBall
      by_cases hlt : s.pathIndex < s.path.length
      · rw [dif_pos hlt]
        exact ih
      · rw [dif_neg hlt]
        exact ih
    | complete => exact ih
    | restart rng =>
      intro z x c hc hp
      have hno : noPathFlags (generateRandomMaze (DIFFICULTY_SIZES s.difficulty).1
          (DIFFICULTY_SIZES s.difficulty).2 rng).1 := by
        cases s.difficulty <;>
          exact noPathFlags_generateRandomMaze _ _ rng (by decide) (by decide)
      have := hno z x c hc
      rw [this] at hp
      exact Bool.noConfusion hp
    | generateMaze rng =>
      intro z x c hc hp
      have hno : noPathFlags (generateRandomMaze (DIFFICULTY_SIZES s.difficulty).1
          (DIFFICULTY_SIZES s.difficulty).2 rng).1 := by
        cases s.difficulty <;>
          exact noPathFlags_generateRandomMaze _ _ rng (by decide) (by decide)
      have := hno z x c hc
      rw [this] at hp
      exact Bool.noConfusion hp
    | loadPresetMaze i =>
      show pathFlagSub ((loadPresetMaze i s).getD s)
      cases hcp : createPresetMaze i with
      | none =>
        rw [loadPresetMaze_eq_map, hcp]
        exact ih
      | some r =>
        rw [loadPresetMaze_eq_map, hcp]
        intro z x c hc hp
        obtain ⟨p, _, rfl⟩ := createPresetMaze_eq_some hcp
        have := noPathFlags_buildPreset p z x c hc
        rw [this] at hp
        exact Bool.noConfusion hp

/-- The cursor bound of claim C3. -/
def cursorBound (s : MazeState) : Prop :=
  s.visualizationIndex ≤ s.visitedCells.length

/-- Operations other than the two visited-list setters, which are the only
ones that can break the cursor bound (by shrinking `visitedCells` under a
non-zero cursor). -/
def keepsVisited : Op → Prop
  | .setVisitedCells _ => False
  | .storeVisitedCells _ => False
  | _ => True

/-- Claim C3, amended: `0 ≤ visualizationIndex` always holds (the cursor is
a natural number); `advanceVisualization` never decreases the cursor and
preserves the bound `visualizationIndex ≤ visitedCells.length`; every store
operation other than `setVisitedCells` and `storeVisitedCells` preserves
that bound (those two can break it by shrinking `visitedCells` below the
cursor, see the counterexample); and from any reachable state, a call to
`advanceVisualization` at exhaustion returns `false` and leaves the
`isPath` overlay equal to exactly the in-grid cells of the stored path. -/
theorem claim3_cursor_and_commit :
    (∀ s : MazeState, s.visualizationIndex ≤ (advanceVisualization s).1.visualizationIndex) ∧
    (∀ s : MazeState, cursorBound s → cursorBound (advanceVisualization s).1) ∧
    (∀ op : Op, keepsVisited op → ∀ s : MazeState,
      cursorBound s → cursorBound (applyOp op s)) ∧
    (∀ s : MazeState, Reachable s → s.visitedCells.length ≤ s.visualizationIndex →
      (advanceVisualization s).2 = false ∧
      ∀ z x : Int, ∀ c, getCell (advanceVisualization s).1.maze z x = some c →
        (c.isPath = true ↔ ∃ pos, pos ∈ s.path ∧ pos.z = z ∧ pos.x = x)) := by
  refine ⟨?_, ?_, ?_, ?_⟩
  · intro s
    unfold advanceVisualization
    by_cases hlt : s.visualizationIndex < s.visitedCells.length
    · rw [dif_pos hlt]
      show s.visualizationIndex ≤ s.visualizationIndex + 1
      omega
    · rw [dif_neg hlt]
  · intro s hb
    unfold advanceVisualization
    by_cases hlt : s.visualizationIndex < s.visitedCells.length
    · rw [dif_pos hlt]
      show s.visualizationIndex + 1 ≤ s.visitedCells.length
      omega
    · rw [dif_neg hlt]
      exact hb
  · intro op hop s hb
    cases op with
    | setAlgorithm a => exact hb
    | setVisualizationMode m => exact hb
    | setDifficulty d => exact hb
    | startGame =>
      show cursorBound (startGame s)
      unfold startGame
      split
      · exact hb
      · exact hb
    | setPath p => exact hb
    | setVisitedCells cs => exact hop.elim
    | storeVisitedCells cs => exact hop.elim
    | setStats st => exact hb
    | startVisualization => exact Nat.zero_le _
    | advanceVisualization =>
      show cursorBound (advanceVisualization s).1
      unfold advanceVisualization
      by_cases hlt : s.visualizationIndex < s.visitedCells.length
      · rw [dif_pos hlt]
        show s.visualizationIndex + 1 ≤ s.visitedCells.length
        omega
      · rw [dif_neg hlt]
        exact hb
    | startMoving => exact hb
    | moveBall =>
      show cursorBound (moveBall s).1
      unfold moveBall
      by_cases hlt : s.pathIndex < s.path.length
      · rw [dif_pos hlt]
        exact hb
      · rw [dif_neg hlt]
        exact hb
    | complete => exact hb
    | restart rng => exact Nat.zero_le _
    | generateMaze rng => exact Nat.zero_le _
    | loadPresetMaze i =>
      show cursorBound ((loadPresetMaze i s).getD s)
      cases hcp : createPresetMaze i with
      | none =>
        rw [loadPresetMaze_eq_map, hcp]
        exact hb
      | some r =>
        rw [loadPresetMaze_eq_map, hcp]
        exact Nat.zero_le _
  · intro s hreach hex
    have hlt : ¬s.visualizationIndex < s.visitedCells.length := by omega
    have hsub := pathFlagSub_reachable s hreach
    constructor
    · unfold advanceVisualization
      rw [dif_neg hlt]
    · intro z x c hc
      rw [show (advanceVisualization s).1.maze =
        markPathCells s.path (s.maze.map (fun row => row.map (fun cell => cell)))
        from by unfold advanceVisualization; rw [dif_neg hlt],
        getCell_markPathCells] at hc
      by_cases hany : (s.path.any fun pos => pos.z == z && pos.x == x) = true
      · rw [if_pos hany, getCell_copyRows] at hc
        rcases Option.map_eq_some'.mp hc with ⟨c₀, _, rfl⟩
        exact iff_of_true rfl ((any_coord_iff s.path z x).mp hany)
      · rw [if_neg hany, getCell_copyRows] at hc
        refine iff_of_false ?_ ?_
        · intro hp
          exact hany ((any_coord_iff s.path z x).mpr (hsub z x c hc hp))
        · intro hmem
          exact hany ((any_coord_iff s.path z x).mpr hmem)

/-- Claim C3 as stated is false: `storeVisitedCells` can shrink
`visitedCells` below an already-advanced cursor, violating
`visualizationIndex ≤ visitedCells.length` after a reachable sequence of
store operations (store one visited cell, advance once, store the empty
list). -/
theorem claim3_counterexample :
    Reachable (applyOp (Op.storeVisitedCells [])
      (applyOp Op.advanceVisualization
        (applyOp (Op.storeVisitedCells [{ x := 1, z := 1 }]) initialState))) ∧
    ¬((applyOp (Op.storeVisitedCells [])
        (applyOp Op.advanceVisualization
          (applyOp (Op.storeVisitedCells [{ x := 1, z := 1 }]) initialState))).visualizationIndex ≤
      (applyOp (Op.storeVisitedCells [])
        (applyOp Op.advanceVisualization
          (applyOp (Op.storeVisitedCells [{ x := 1, z := 1 }]) initialState))).visitedCells.length) :=
  ⟨((Reachable.init.next _).next _).next _, by decide⟩

theorem claim3_witness :
    ((keepsVisited Op.startMoving) ∧ cursorBound initialState ∧
      Reachable initialState ∧ initialState.visitedCells.length ≤ initialState.visualizationIndex) ∧
    (cursorBound (applyOp Op.startMoving initialState) ∧
      (advanceVisualization initialState).2 = false) :=
  ⟨⟨trivial, Nat.le_refl 0, Reachable.init, Nat.le_refl 0⟩,
    claim3_cursor_and_commit.2.2.1 Op.startMoving trivial initialState (Nat.le_refl 0),
    (claim3_cursor_and_commit.2.2.2 initialState Reachable.init (Nat.le_refl 0)).1⟩

/-- Cell updates that leave the coordinate fields alone — every update the
store ever performs. -/
def coordKeeping (f : MazeCell → MazeCell) : Prop :=
  ∀ c, (f c).x = c.x ∧ (f c).z = c.z

/-- The grid-shape invariant of claim C10: exactly `h` rows of exactly `w`
cells, and the cell reachable at indices `(z, x)` stores those indices in
its own `x`/`z` fields. -/
def gridWF (w h : Int) (m : Maze) : Prop :=
  (m.length : Int) = h ∧
  (∀ row ∈ m, (row.length : Int) = w) ∧
  (∀ z x : Int, ∀ c, getCell m z x = some c → c.x = x ∧ c.z = z)

theorem mem_listModify {g : α → α} :
    ∀ {n : Nat} {l : List α} {a : α}, a ∈ listModify g n l →
      a ∈ l ∨ ∃ b, b ∈ l ∧ a = g b := by
  intro n l
  induction l generalizing n with
  | nil => intro a ha; cases n <;> exact Or.inl ha
  | cons hd tl ih =>
    intro a ha
    cases n with
    | zero =>
      rcases List.mem_cons.mp ha with h | h
      · exact Or.inr ⟨hd, List.mem_cons_self hd tl, h⟩
      · exact Or.inl (List.mem_cons_of_mem hd h)
    | succ n =>
      rcases List.mem_cons.mp ha with h | h
      · exact Or.inl (h ▸ List.mem_cons_self hd tl)
      · rcases ih h with h' | ⟨b, hb, hab⟩
        · exact Or.inl (List.mem_cons_of_mem hd h')
        · exact Or.inr ⟨b, List.mem_cons_of_mem hd hb, hab⟩

theorem gridWF_modifyCell {w h : Int} {m : Maze} (hm : gridWF w h m) (z x : Int)
    {f : MazeCell → MazeCell} (hf : coordKeeping f) :
    gridWF w h (modifyCell m z x f) := by
  obtain ⟨hlen, hrows, hcoords⟩ := hm
  refine ⟨?_, ?_, ?_⟩
  · unfold modifyCell
    by_cases hg : 0 ≤ z ∧ 0 ≤ x
    · rw [if_pos hg, listModify_length]
      exact hlen
    · rw [if_neg hg]
      exact hlen
  · intro row hrow
    unfold modifyCell at hrow
    by_cases hg : 0 ≤ z ∧ 0 ≤ x
    · rw [if_pos hg] at hrow
      rcases mem_listModify hrow with h' | ⟨row₀, hrow₀, rfl⟩
      · exact hrows row h'
      · rw [listModify_length]
        exact hrows row₀ hrow₀
    · rw [if_neg hg] at hrow
      exact hrows row hrow
  · intro z' x' c hc
    rw [getCell_modifyCell] at hc
    by_cases hq : z' = z ∧ x' = x
    · rw [if_pos hq] at hc
      obtain ⟨rfl, rfl⟩ := hq
      rcases Option.map_eq_some'.mp hc with ⟨c₀, hc₀, rfl⟩
      obtain ⟨hx, hz⟩ := hf c₀
      rw [hx, hz]
      exact hcoords _ _ _ hc₀
    · rw [if_neg hq] at hc
      exact hcoords _ _ _ hc

theorem gridWF_mapRows {w h : Int} {m : Maze} (hm : gridWF w h m)
    {f : MazeCell → MazeCell} (hf : coordKeeping f) :
    gridWF w h (m.map (fun row => row.map f)) := by
  obtain ⟨hlen, hrows, hcoords⟩ := hm
  refine ⟨by rw [List.length_map]; exact hlen, ?_, ?_⟩
  · intro row hrow
    rcases List.mem_map.mp hrow with ⟨row₀, hrow₀, rfl⟩
    rw [List.length_map]
    exact hrows row₀ hrow₀
  · intro z x c hc
    rw [getCell_mapRows] at hc
    rcases Option.map_eq_some'.mp hc with ⟨c₀, hc₀, rfl⟩
    obtain ⟨hx, hz⟩ := hf c₀
    rw [hx, hz]
    exact hcoords _ _ _ hc₀

theorem gridWF_carve (width height : Int) (rng : Nat → Nat) {w h : Int} :
    ∀ (fuel c : Nat) (m : Maze) (x z : Int), gridWF w h m →
      gridWF w h (carve width height rng fuel c m x z).1 := by
  intro fuel
  induction fuel with
  | zero => intro c m x z hm; exact hm
  | succ fuel ih =>
    intro c m x z hm
    refine foldl_induction _ (fun acc : Maze × Nat => gridWF w h acc.1) _
      ((openCell m z x, c + 3) : Maze × Nat)
      (gridWF_modifyCell hm z x (fun _ => ⟨rfl, rfl⟩)) ?_
    intro d _ acc hacc
    by_cases hg : 0 < x + d.1 ∧ x + d.1 < width - 1 ∧ 0 < z + d.2 ∧
        z + d.2 < height - 1 ∧ cellIsWall acc.1 (z + d.2) (x + d.1)
    · simp only [if_pos hg]
      exact ih acc.2 _ (x + d.1) (z + d.2)
        (gridWF_modifyCell hacc (z + d.2 / 2) (x + d.1 / 2) (fun _ => ⟨rfl, rfl⟩))
    · simp only [if_neg hg]
      exact hacc

theorem mkRow_length (z : Int) (wall : Bool) :
    ∀ (count : Nat) (x0 : Int), (mkRow z wall x0 count).length = count := by
  intro count
  induction count with
  | zero => intro x0; rfl
  | succ n ih => intro x0; simpa [mkRow] using ih (x0 + 1)

theorem mkRows_length (wall : Bool) (width : Int) :
    ∀ (count : Nat) (z0 : Int), (mkRows wall width z0 count).length = count := by
  intro count
  induction count with
  | zero => intro z0; rfl
  | succ n ih => intro z0; simpa [mkRows] using ih (z0 + 1)

theorem mem_mkRows {wall : Bool} {width : Int} :
    ∀ {count : Nat} {z0 : Int} {row : List MazeCell}, row ∈ mkRows wall width z0 count →
      ∃ z', row = mkRow z' wall 0 width.toNat := by
  intro count
  induction count with
  | zero => intro z0 row h; cases h
  | succ n ih =>
    intro z0 row h
    rcases List.mem_cons.mp h with h' | h'
    · exact ⟨z0, h'⟩
    · exact ih h'

theorem gridWF_mkGrid {w h : Int} (hw : 0 ≤ w) (hh : 0 ≤ h) (wall : Bool) :
    gridWF w h (mkGrid w h wall) := by
  refine ⟨?_, ?_, ?_⟩
  · rw [show mkGrid w h wall = mkRows wall w 0 h.toNat from rfl, mkRows_length]
    omega
  · intro row hrow
    rcases mem_mkRows hrow with ⟨z', rfl⟩
    rw [mkRow_length]
    omega
  · intro z x c hc
    rw [getCell_mkGrid] at hc
    by_cases hin : 0 ≤ z ∧ z < h ∧ 0 ≤ x ∧ x < w
    · rw [if_pos hin] at hc
      cases hc
      exact ⟨rfl, rfl⟩
    · rw [if_neg hin] at hc
      cases hc

theorem gridWF_layWalls {w h hgt wid : Int} {walls : List (Nat × Nat)} {m : Maze}
    (hm : gridWF w h m) : gridWF w h (layWalls hgt wid walls m) := by
  unfold layWalls
  refine foldl_induction _ (gridWF w h) walls m hm ?_
  intro zx _ acc hacc
  by_cases hg : (zx.1 : Int) < hgt ∧ (zx.2 : Int) < wid
  · rw [if_pos hg]
    exact gridWF_modifyCell hacc _ _ (fun _ => ⟨rfl, rfl⟩)
  · rw [if_neg hg]
    exact hacc

theorem gridWF_markPathCells {w h : Int} : ∀ (ps : List Position) {m : Maze},
    gridWF w h m → gridWF w h (markPathCells ps m) := by
  intro ps
  induction ps with
  | nil => intro m hm; exact hm
  | cons pos rest ih =>
    intro m hm
    rw [show markPathCells (pos :: rest) m = markPathCells rest
      (modifyCell m pos.z pos.x (fun cell => { cell with isPath := true })) from rfl]
    exact ih (gridWF_modifyCell hm pos.z pos.x (fun _ => ⟨rfl, rfl⟩))

theorem gridWF_visitedFoldl {w h : Int} : ∀ (ps : List Position) {m : Maze},
    gridWF w h m →
    gridWF w h (ps.foldl (fun acc pos => modifyCell acc pos.z pos.x
      (fun cell => { cell with isVisited := true })) m) := by
  intro ps
  induction ps with
  | nil => intro m hm; exact hm
  | cons pos rest ih =>
    intro m hm
    exact ih (gridWF_modifyCell hm pos.z pos.x (fun _ => ⟨rfl, rfl⟩))

theorem gridWF_generateRandomMaze (w h : Int) (rng : Nat → Nat)
    (hw : 0 ≤ w) (hh : 0 ≤ h) : gridWF w h (generateRandomMaze w h rng).1 := by
  rw [generateRandomMaze_maze_eq]
  refine gridWF_modifyCell ?_ _ _ (fun _ => ⟨rfl, rfl⟩)
  refine gridWF_modifyCell ?_ _ _ (fun _ => ⟨rfl, rfl⟩)
  refine gridWF_modifyCell ?_ _ _ (fun _ => ⟨rfl, rfl⟩)
  refine gridWF_modifyCell ?_ _ _ (fun _ => ⟨rfl, rfl⟩)
  refine gridWF_modifyCell ?_ _ _ (fun _ => ⟨rfl, rfl⟩)
  refine gridWF_modifyCell ?_ _ _ (fun _ => ⟨rfl, rfl⟩)
  exact gridWF_carve w h rng _ 0 _ 1 1 (gridWF_mkGrid hw hh true)

theorem gridWF_buildPreset (p : PresetSpec) (hw : 0 ≤ p.width) (hh : 0 ≤ p.height) :
    gridWF p.width p.height (buildPreset p).maze := by
  rw [buildPreset_maze_eq]
  refine gridWF_modifyCell ?_ _ _ (fun _ => ⟨rfl, rfl⟩)
  refine gridWF_modifyCell ?_ _ _ (fun _ => ⟨rfl, rfl⟩)
  refine gridWF_modifyCell ?_ _ _ (fun _ => ⟨rfl, rfl⟩)
  refine gridWF_modifyCell ?_ _ _ (fun _ => ⟨rfl, rfl⟩)
  refine gridWF_layWalls ?_
  refine foldl_induction _ (gridWF p.width p.height) _ _ ?_ ?_
  · refine foldl_induction _ (gridWF p.width p.height) _ _
      (gridWF_mkGrid hw hh false) ?_
    intro a _ acc hacc
    refine gridWF_modifyCell ?_ _ _ (fun _ => ⟨rfl, rfl⟩)
    exact gridWF_modifyCell hacc _ _ (fun _ => ⟨rfl, rfl⟩)
  · intro a _ acc hacc
    refine gridWF_modifyCell ?_ _ _ (fun _ => ⟨rfl, rfl⟩)
    exact gridWF_modifyCell hacc _ _ (fun _ => ⟨rfl, rfl⟩)

set_option maxRecDepth 4000 in
/-- Claim C10: every store operation preserves the grid-shape invariant
`gridWF`: the maze has exactly `mazeHeight` rows of exactly `mazeWidth`
cells, and the cell at indices `(z, x)` stores `x`/`z` in its coordinate
fields; the invariant holds in the initial state and hence in every
reachable state. -/
theorem claim10_grid_shape :
    gridWF initialState.mazeWidth initialState.mazeHeight initialState.maze ∧
    (∀ op : Op, ∀ s : MazeState,
      gridWF s.mazeWidth s.mazeHeight s.maze →
      gridWF (applyOp op s).mazeWidth (applyOp op s).mazeHeight (applyOp op s).maze) ∧
    (∀ s : MazeState, Reachable s → gridWF s.mazeWidth s.mazeHeight s.maze) := by
  have hinit : gridWF initialState.mazeWidth initialState.mazeHeight initialState.maze :=
    gridWF_buildPreset preset0 (by decide) (by decide)
  have hstep : ∀ op : Op, ∀ s : MazeState,
      gridWF s.mazeWidth s.mazeHeight s.maze →
      gridWF (applyOp op s).mazeWidth (applyOp op s).mazeHeight (applyOp op s).maze := by
    intro op s hwf
    cases op with
    | setAlgorithm a => exact hwf
    | setVisualizationMode m => exact hwf
    | setDifficulty d => exact hwf
    | startGame =>
      show gridWF (startGame s).mazeWidth (startGame s).mazeHeight (startGame s).maze
      unfold startGame
      split
      · exact hwf
      · exact hwf
    | setPath p =>
      show gridWF s.mazeWidth s.mazeHeight (markPathCells p
        (s.maze.map (fun row => row.map (fun cell => { cell with isPath := false }))))
      exact gridWF_markPathCells p (gridWF_mapRows hwf (fun _ => ⟨rfl, rfl⟩))
    | setVisitedCells cs =>
      show gridWF s.mazeWidth s.mazeHeight (cs.foldl
        (fun acc pos => modifyCell acc pos.z pos.x
          (fun cell => { cell with isVisited := true }))
        (s.maze.map (fun row => row.map (fun cell => { cell with isVisited := false }))))
      exact gridWF_visitedFoldl cs (gridWF_mapRows hwf (fun _ => ⟨rfl, rfl⟩))
    | storeVisitedCells cs => exact hwf
    | setStats st => exact hwf
    | startVisualization =>
      exact gridWF_mapRows hwf (fun _ => ⟨rfl, rfl⟩)
    | advanceVisualization =>
      show gridWF (advanceVisualization s).1.mazeWidth (advanceVisualization s).1.mazeHeight
        (advanceVisualization s).1.maze
      unfold advanceVisualization
      by_cases hlt : s.visualizationIndex < s.visitedCells.length
      · rw [dif_pos hlt]
        exact gridWF_modifyCell (gridWF_mapRows hwf (fun _ => ⟨rfl, rfl⟩)) _ _
          (fun _ => ⟨rfl, rfl⟩)
      · rw [dif_neg hlt]
        show gridWF s.mazeWidth s.mazeHeight (markPathCells s.path
          (s.maze.map (fun row => row.map (fun cell => cell))))
        exact gridWF_markPathCells s.path (gridWF_mapRows hwf (fun _ => ⟨rfl, rfl⟩))
    | startMoving => exact hwf
    | moveBall =>
      show gridWF (moveBall s).1.mazeWidth (moveBall s).1.mazeHeight (moveBall s).1.maze
      unfold moveBall
      by_cases hlt : s.pathIndex < s.path.length
      · rw [dif_pos hlt]
        exact hwf
      · rw [dif_neg hlt]
        exact hwf
    | complete => exact hwf
    | restart rng =>
      show gridWF (DIFFICULTY_SIZES s.difficulty).1 (DIFFICULTY_SIZES s.difficulty).2
        (generateRandomMaze (DIFFICULTY_SIZES s.difficulty).1
          (DIFFICULTY_SIZES s.difficulty).2 rng).1
      exact gridWF_generateRandomMaze _ _ rng
        (by cases s.difficulty <;> decide) (by cases s.difficulty <;> decide)
    | generateMaze rng =>
      show gridWF (DIFFICULTY_SIZES s.difficulty).1 (DIFFICULTY_SIZES s.difficulty).2
        (generateRandomMaze (DIFFICULTY_SIZES s.difficulty).1
          (DIFFICULTY_SIZES s.difficulty).2 rng).1
      exact gridWF_generateRandomMaze _ _ rng
        (by cases s.difficulty <;> decide) (by cases s.difficulty <;> decide)
    | loadPresetMaze i =>
      show gridWF ((loadPresetMaze i s).getD s).mazeWidth
        ((loadPresetMaze i s).getD s).mazeHeight ((loadPresetMaze i s).getD s).maze
      cases hcp : createPresetMaze i with
      | none =>
        rw [loadPresetMaze_eq_map, hcp]
        exact hwf
      | some r =>
        rw [loadPresetMaze_eq_map, hcp]
        obtain ⟨p, hmem, rfl⟩ := createPresetMaze_eq_some hcp
        have hp3 : p = preset0 ∨ p = preset1 ∨ p = preset2 := by
          simpa [PRESET_MAZES] using hmem
        rcases hp3 with rfl | rfl | rfl <;>
          exact gridWF_buildPreset _ (by decide) (by decide)
  refine ⟨hinit, hstep, ?_⟩
  intro s hreach
  induction hreach with
  | init => exact hinit
  | @next s h op ih => exact hstep op s ih

theorem claim10_witness :
    gridWF initialState.mazeWidth initialState.mazeHeight initialState.maze ∧
    gridWF (applyOp Op.startMoving initialState).mazeWidth
      (applyOp Op.startMoving initialState).mazeHeight
      (applyOp Op.startMoving initialState).maze :=
  ⟨claim10_grid_shape.1,
    claim10_grid_shape.2.1 Op.startMoving initialState claim10_grid_shape.1⟩

end MazeSim
